import Mathlib

/-!
# Verification of the `TaskManager` engine (`src/lib/server/manager.ts`)

This file gives a shallow embedding of the in-memory task-orchestration
engine of the repository and proves the specification's claims about it.

The JavaScript `Map` objects of the manager (`tasks`, `state`,
`abortControllers`, `runGeneration`, `timeouts`) are embedded as
insertion-ordered association lists (`List (String × α)`), matching the
insertion-order iteration semantics of `Map`.  `AbortController` objects are
embedded by identity: each controller is a fresh natural number, and the set
of aborted controllers is tracked in the manager (aborting is permanent, and
a controller captured by a closure stays observable after it is dropped from
the map, exactly as in the source).  `setTimeout` timers are likewise
embedded by identity: a timer can fire only while its id is still recorded
for its task (i.e. it was not cleared or replaced) and it fires at most once.
Timestamps (`Date.now()`) are external inputs, passed as explicit `now`
arguments.  Handlers are caller-supplied code; their interactions with the
engine (progress reports and settlement) are embedded as the operations the
engine exposes to them (`progressCall`, `settle`), parameterised by the
`RunHandle` (generation + controller) the closure captured at `start` time.
-/

namespace TaskMgr

/-- Lifecycle status of a managed task (the `status` discriminant of
`TaskState` in `src/lib/shared/types.ts`). -/
inductive TaskStatus where
  | pending
  | running
  | completed
  | error
  | canceled
  | timed_out
deriving DecidableEq, Repr

/-- Progress information reported by a running task (`TaskProgress`). -/
structure TaskProgress where
  message : String
  current : Option Nat
  total : Option Nat
deriving DecidableEq, Repr

/-- Snapshot of a task's current state: the discriminated union `TaskState`
of `src/lib/shared/types.ts`, with exactly the fields of each variant. -/
inductive TaskState where
  | pending (id : String)
  | running (id : String) (progress : Option TaskProgress)
  | completed (id : String) (lastRun : Nat)
  | error (id : String) (lastRun : Nat) (errorMsg : String)
  | canceled (id : String) (lastRun : Nat)
  | timed_out (id : String) (lastRun : Nat)
deriving DecidableEq, Repr

/-- The `status` discriminant of a `TaskState`. -/
def TaskState.status : TaskState → TaskStatus
  | .pending _ => .pending
  | .running _ _ => .running
  | .completed _ _ => .completed
  | .error _ _ _ => .error
  | .canceled _ _ => .canceled
  | .timed_out _ _ => .timed_out

/-- The `lastRun` field of a `TaskState`, for the variants that carry it
(mirrors the `"lastRun" in s` check of `evictOldTasks`). -/
def TaskState.lastRun? : TaskState → Option Nat
  | .completed _ t => some t
  | .error _ t _ => some t
  | .canceled _ t => some t
  | .timed_out _ t => some t
  | _ => none

/-- The module-level constant `TERMINAL_STATUSES` of `manager.ts`. -/
def TERMINAL_STATUSES : List TaskStatus :=
  [.completed, .error, .canceled, .timed_out]

/-- `TERMINAL_STATUSES.has(s)`. -/
def TaskStatus.isTerminal (s : TaskStatus) : Bool :=
  TERMINAL_STATUSES.contains s

/-- Every terminal `TaskState` variant carries a `lastRun` field (this is
what makes the `"lastRun" in s` conjunct of `evictOldTasks` redundant but
faithful). -/
theorem TaskState.isTerminal_lastRun {s : TaskState}
    (h : s.status.isTerminal = true) : s.lastRun?.isSome = true := by
  cases s <;> simp_all [TaskState.status, TaskStatus.isTerminal,
    TERMINAL_STATUSES, TaskState.lastRun?]

/-! ## Association lists embedding JavaScript `Map` -/

/-- `Map.get`. -/
def lookupKey {α : Type} (l : List (String × α)) (k : String) : Option α :=
  (l.find? (fun p => p.1 == k)).map (·.2)

/-- `Map.has`. -/
def hasKey {α : Type} (l : List (String × α)) (k : String) : Bool :=
  l.any (fun p => p.1 == k)

/-- `Map.set`: replaces in place when the key is present (preserving
insertion order), appends otherwise. -/
def setKey {α : Type} (l : List (String × α)) (k : String) (v : α) :
    List (String × α) :=
  if hasKey l k then l.map (fun p => if p.1 == k then (k, v) else p)
  else l ++ [(k, v)]

/-- `Map.delete`. -/
def removeKey {α : Type} (l : List (String × α)) (k : String) :
    List (String × α) :=
  l.filter (fun p => !(p.1 == k))

/-- Lookup in a `Nat`-keyed association list (used for the registry of
`setTimeout` callbacks, keyed by timer handle). -/
def lookupNat {α : Type} (l : List (Nat × α)) (k : Nat) : Option α :=
  (l.find? (fun p => p.1 == k)).map (·.2)

@[simp] theorem lookupKey_nil {α : Type} (k : String) :
    lookupKey ([] : List (String × α)) k = none := rfl

theorem lookupKey_cons {α : Type} (p : String × α) (l : List (String × α))
    (k : String) :
    lookupKey (p :: l) k = if p.1 == k then some p.2 else lookupKey l k := by
  simp only [lookupKey, List.find?_cons]
  by_cases h : p.1 == k <;> simp [h]

@[simp] theorem hasKey_nil {α : Type} (k : String) :
    hasKey ([] : List (String × α)) k = false := rfl

theorem hasKey_cons {α : Type} (p : String × α) (l : List (String × α))
    (k : String) :
    hasKey (p :: l) k = (p.1 == k || hasKey l k) := by
  simp [hasKey, List.any_cons]

theorem hasKey_iff_lookupKey {α : Type} (l : List (String × α)) (k : String) :
    hasKey l k = true ↔ (lookupKey l k).isSome = true := by
  induction l with
  | nil => simp
  | cons p l ih =>
    rw [hasKey_cons, lookupKey_cons]
    by_cases h : p.1 == k <;> simp [h, ih]

theorem lookup_replace_self {α : Type} (l : List (String × α)) (k : String)
    (v : α) (h : hasKey l k = true) :
    lookupKey (l.map (fun p => if p.1 == k then (k, v) else p)) k = some v := by
  induction l with
  | nil => simp at h
  | cons p l ih =>
    rw [hasKey_cons] at h
    by_cases hp : p.1 == k
    · have hpk : p.1 = k := by simpa using hp
      simp [lookupKey_cons, hpk]
    · rw [List.map_cons, if_neg hp, lookupKey_cons, if_neg hp]
      exact ih (by simpa [hp] using h)

theorem lookup_replace_other {α : Type} (l : List (String × α))
    (k k' : String) (v : α) (h : k' ≠ k) :
    lookupKey (l.map (fun p => if p.1 == k then (k, v) else p)) k'
      = lookupKey l k' := by
  have hbk : (k == k') = false := by
    simp only [beq_eq_false_iff_ne, ne_eq]
    exact fun he => h he.symm
  induction l with
  | nil => simp
  | cons p l ih =>
    by_cases hp : p.1 == k
    · have hpk : p.1 = k := by simpa using hp
      have hpk' : (p.1 == k') = false := by rw [hpk]; exact hbk
      rw [List.map_cons, if_pos hp, lookupKey_cons, lookupKey_cons, hpk', hbk]
      simp only [Bool.false_eq_true, if_false]
      exact ih
    · rw [List.map_cons, if_neg hp, lookupKey_cons, lookupKey_cons]
      by_cases hp' : p.1 == k'
      · rw [if_pos hp', if_pos hp']
      · rw [if_neg hp', if_neg hp']; exact ih

theorem lookup_append_single_self {α : Type} (l : List (String × α))
    (k : String) (v : α) (h : hasKey l k = false) :
    lookupKey (l ++ [(k, v)]) k = some v := by
  induction l with
  | nil => simp [lookupKey_cons]
  | cons p l ih =>
    rw [hasKey_cons] at h
    by_cases hp : p.1 == k
    · simp [hp] at h
    · rw [List.cons_append, lookupKey_cons, if_neg hp]
      exact ih (by simpa [hp] using h)

theorem lookup_append_single_other {α : Type} (l : List (String × α))
    (k k' : String) (v : α) (h : k' ≠ k) :
    lookupKey (l ++ [(k, v)]) k' = lookupKey l k' := by
  have hbk : (k == k') = false := by
    simp only [beq_eq_false_iff_ne, ne_eq]
    exact fun he => h he.symm
  induction l with
  | nil => simp [lookupKey_cons, hbk]
  | cons p l ih =>
    rw [List.cons_append, lookupKey_cons, lookupKey_cons]
    by_cases hp' : p.1 == k'
    · rw [if_pos hp', if_pos hp']
    · rw [if_neg hp', if_neg hp']; exact ih

@[simp] theorem lookupKey_setKey_self {α : Type} (l : List (String × α))
    (k : String) (v : α) : lookupKey (setKey l k v) k = some v := by
  unfold setKey
  by_cases h : hasKey l k
  · rw [if_pos h]; exact lookup_replace_self l k v h
  · rw [if_neg h]
    exact lookup_append_single_self l k v (by simpa using h)

@[simp] theorem lookupKey_setKey_other {α : Type} (l : List (String × α))
    (k k' : String) (v : α) (h : k' ≠ k) :
    lookupKey (setKey l k v) k' = lookupKey l k' := by
  unfold setKey
  by_cases hh : hasKey l k
  · rw [if_pos hh]; exact lookup_replace_other l k k' v h
  · rw [if_neg hh]; exact lookup_append_single_other l k k' v h

@[simp] theorem lookupKey_removeKey_self {α : Type} (l : List (String × α))
    (k : String) : lookupKey (removeKey l k) k = none := by
  induction l with
  | nil => rfl
  | cons p l ih =>
    unfold removeKey List.filter
    by_cases hp : p.1 == k
    · simpa [hp, removeKey] using ih
    · simpa [hp, lookupKey_cons, removeKey] using ih

@[simp] theorem lookupKey_removeKey_other {α : Type} (l : List (String × α))
    (k k' : String) (h : k' ≠ k) :
    lookupKey (removeKey l k) k' = lookupKey l k' := by
  induction l with
  | nil => rfl
  | cons p l ih =>
    unfold removeKey List.filter
    by_cases hp : p.1 == k
    · have hpk : p.1 = k := by simpa [beq_iff_eq] using hp
      have : (p.1 == k') = false := by
        simp [beq_iff_eq, hpk]; exact fun he => h he.symm
      simpa [hp, lookupKey_cons, this, removeKey] using ih
    · by_cases hp' : p.1 == k'
      · simp [hp, hp', lookupKey_cons, removeKey]
      · simpa [hp, hp', lookupKey_cons, removeKey] using ih

theorem keys_replace {α : Type} (l : List (String × α)) (k : String) (v : α) :
    (l.map (fun p => if p.1 == k then (k, v) else p)).map Prod.fst
      = l.map Prod.fst := by
  induction l with
  | nil => rfl
  | cons p l ih =>
    by_cases hp : p.1 == k
    · have hpk : p.1 = k := by simpa using hp
      simp only [List.map_cons, if_pos hp, ih]
      rw [hpk]
    · simp only [List.map_cons, if_neg hp, ih]

/-- Keys-nodup is preserved by `setKey`. -/
theorem nodup_keys_setKey {α : Type} (l : List (String × α)) (k : String)
    (v : α) (h : (l.map Prod.fst).Nodup) :
    ((setKey l k v).map Prod.fst).Nodup := by
  unfold setKey
  by_cases hh : hasKey l k
  · rw [if_pos hh, keys_replace]; exact h
  · rw [if_neg hh, List.map_append, List.nodup_append]
    refine ⟨h, by simp, ?_⟩
    intro a ha hb
    simp only [List.map_cons, List.map_nil, List.mem_singleton] at hb
    apply hh
    unfold hasKey
    rw [List.any_eq_true]
    rcases List.mem_map.mp ha with ⟨p, hp, hfst⟩
    exact ⟨p, hp, by simp [hfst, hb]⟩

/-! ## The manager -/

/-- `RegisteredTask` of `manager.ts` (the `handler` field is caller-supplied
code and is represented by the operations it can perform, not stored). -/
structure RegisteredTask where
  id : String
  timeout : Option Nat
deriving DecidableEq, Repr

/-- `TaskUpdateEvent` of `manager.ts`. -/
structure TaskUpdateEvent where
  taskId : String
  state : TaskState
  eventId : Nat
deriving DecidableEq, Repr

/-- The private fields of the `TaskManager` class.  `abortControllers` maps a
task id to the identity (a fresh `Nat`) of its current `AbortController`;
`aborted` is the set of controller identities whose `abort()` has been called
(abort is permanent and observable through captured references even after the
controller is dropped from the map).  `timeouts` maps a task id to the
handle of the timer it last scheduled, mirroring `this.timeouts`; the JS
runtime's view of the timers lives beside it: `timers` records every
`setTimeout` call ever made together with the task id its callback
captured, `clearedTimers` the handles on which `clearTimeout` was called,
and `firedTimers` the handles whose callback has already run (a JS timer
fires at most once, and never after being cleared — but deleting a
`timeouts` map entry alone does not clear the underlying timer). -/
structure Manager where
  tasks : List (String × RegisteredTask)
  state : List (String × TaskState)
  abortControllers : List (String × Nat)
  runGeneration : List (String × Nat)
  timeouts : List (String × Nat)
  debug : Bool
  maxHistory : Nat
  eventBufferSize : Nat
  nextEventId : Nat
  eventBuffer : List TaskUpdateEvent
  ringHead : Nat
  nextCtrlId : Nat
  aborted : List Nat
  nextTimerId : Nat
  timers : List (Nat × String)
  clearedTimers : List Nat
  firedTimers : List Nat
deriving DecidableEq, Repr

/-- The `TaskManager` constructor: `options.debug ?? false`,
`options.maxHistory ?? 0`, `options.eventBufferSize ?? 0`, all other fields
at their initializers. -/
def mkManager (debug : Bool) (maxHistory eventBufferSize : Nat) : Manager where
  tasks := []
  state := []
  abortControllers := []
  runGeneration := []
  timeouts := []
  debug := debug
  maxHistory := maxHistory
  eventBufferSize := eventBufferSize
  nextEventId := 1
  eventBuffer := []
  ringHead := 0
  nextCtrlId := 0
  aborted := []
  nextTimerId := 0
  timers := []
  clearedTimers := []
  firedTimers := []

/-- A run handle: what the closures created by `start` capture — the
generation the run was launched with and the identity of its
`AbortController`. -/
structure RunHandle where
  generation : Nat
  ctrl : Nat
deriving DecidableEq, Repr

/-- Settlement of a handler's promise: fulfilled (`success`) or rejected
(`failure` with the error message). -/
inductive Settlement where
  | success
  | failure (msg : String)
deriving DecidableEq, Repr

/-- `TaskManager.register`.  Throws (`Except.error`) on a duplicate id;
otherwise stores the descriptor and seeds the state as `pending`. -/
def Manager.register (m : Manager) (taskId : String) (timeout : Option Nat) :
    Except String Manager :=
  if hasKey m.tasks taskId then
    Except.error ("Task \x22" ++ taskId ++ "\x22 is already registered")
  else
    Except.ok { m with
      tasks := setKey m.tasks taskId { id := taskId, timeout := timeout },
      state := setKey m.state taskId (.pending taskId) }

/-- `TaskManager.getState`. -/
def Manager.getState (m : Manager) (taskId : String) : Option TaskState :=
  lookupKey m.state taskId

/-- `TaskManager.getAllStates`. -/
def Manager.getAllStates (m : Manager) : List TaskState :=
  m.state.map (·.2)

/-- The private `clearTimeout` helper: when a timer handle is recorded for
the task, calls `clearTimeout` on it (the handle joins `clearedTimers`, so
its callback can never run) and forgets the entry. -/
def Manager.clearTimeoutOf (m : Manager) (taskId : String) : Manager :=
  match lookupKey m.timeouts taskId with
  | some t => { m with
      timeouts := removeKey m.timeouts taskId,
      clearedTimers := t :: m.clearedTimers }
  | none => m

/-- The `terminalTasks` collection of `evictOldTasks`: the `(id, lastRun)`
pairs of every task whose stored status is terminal (the source also checks
`"lastRun" in s`, which every terminal variant satisfies). -/
def terminalEntries (st : List (String × TaskState)) : List (String × Nat) :=
  st.filterMap (fun p =>
    if p.2.status.isTerminal then
      match p.2.lastRun? with
      | some t => some (p.1, t)
      | none => none
    else none)

/-- The loop body of `evictOldTasks`: delete one id from every internal map. -/
def removeFromAllMaps (acc : Manager) (id : String) : Manager :=
  { acc with
    tasks := removeKey acc.tasks id,
    state := removeKey acc.state id,
    abortControllers := removeKey acc.abortControllers id,
    runGeneration := removeKey acc.runGeneration id,
    timeouts := removeKey acc.timeouts id }

/-- The comparison `evictOldTasks` sorts by: ascending `lastRun`
(`(a, b) => a.lastRun - b.lastRun`). -/
def lastRunLE (a b : String × Nat) : Prop :=
  a.2 ≤ b.2

instance : DecidableRel lastRunLE :=
  fun a b => Nat.decLe a.2 b.2

instance : IsTotal (String × Nat) lastRunLE :=
  ⟨fun a b => Nat.le_total a.2 b.2⟩

instance : IsTrans (String × Nat) lastRunLE :=
  ⟨fun _ _ _ => Nat.le_trans⟩

/-- The `toEvict` slice of `evictOldTasks`: the oldest excess terminal tasks
by ascending `lastRun` (`Array.prototype.sort` is stable, as is
`insertionSort` with this comparison). -/
def Manager.evictList (m : Manager) : List (String × Nat) :=
  let terminalTasks := terminalEntries m.state
  (terminalTasks.insertionSort lastRunLE).take
    (terminalTasks.length - m.maxHistory)

/-- `evictOldTasks`: when `maxHistory` is non-zero and the number of tasks in
a terminal state exceeds it, removes the oldest ones (by ascending `lastRun`)
from every internal map. -/
def Manager.evictOldTasks (m : Manager) : Manager :=
  if m.maxHistory = 0 then m
  else if (terminalEntries m.state).length ≤ m.maxHistory then m
  else m.evictList.foldl (fun acc p => removeFromAllMaps acc p.1) m

/-- The accepted-path core of `setState` before eviction: store the new
state, consume the next event id, and append the event to the replay ring
buffer when buffering is enabled (push while filling, overwrite at
`ringHead` once full). -/
def Manager.applyWrite (m : Manager) (taskId : String) (newState : TaskState) :
    Manager :=
  if 0 < m.eventBufferSize then
    if m.eventBuffer.length < m.eventBufferSize then
      { m with
        state := setKey m.state taskId newState,
        nextEventId := m.nextEventId + 1,
        eventBuffer := m.eventBuffer
          ++ [{ taskId := taskId, state := newState,
                eventId := m.nextEventId }] }
    else
      { m with
        state := setKey m.state taskId newState,
        nextEventId := m.nextEventId + 1,
        eventBuffer := m.eventBuffer.set m.ringHead
          { taskId := taskId, state := newState, eventId := m.nextEventId },
        ringHead := (m.ringHead + 1) % m.eventBufferSize }
  else
    { m with
      state := setKey m.state taskId newState,
      nextEventId := m.nextEventId + 1 }

/-- The private `setState`: the single state-mutation entry point.  Returns
the updated manager and the emitted `TaskUpdateEvent` (`none` when the call
was a no-op).  On acceptance it performs `applyWrite` and then, for a
terminal status, `evictOldTasks`.  The subscriber fan-out that the source
performs between the buffer append and the eviction neither reads nor
writes any engine state; it is embedded separately as
`notifySubscribers`. -/
def Manager.setState (m : Manager) (taskId : String) (newState : TaskState) :
    Manager × Option TaskUpdateEvent :=
  match lookupKey m.state taskId with
  | none => (m, none)
  | some current =>
    if (current.status == .canceled || current.status == .timed_out)
        && newState.status != current.status
        && newState.status != .running then
      (m, none)
    else
      let m3 := m.applyWrite taskId newState
      let m4 := if newState.status.isTerminal then m3.evictOldTasks else m3
      (m4, some { taskId := taskId, state := newState,
                  eventId := m.nextEventId })

/-- The `isStale` closure created by `start`: a run is stale when the stored
generation for its task no longer equals the generation it was launched
with. -/
def Manager.isStaleRun (m : Manager) (taskId : String) (h : RunHandle) : Bool :=
  lookupKey m.runGeneration taskId != some h.generation

/-- The `ctx.isCanceled` closure: whether the captured `AbortController`'s
signal is aborted. -/
def Manager.ctrlAborted (m : Manager) (c : Nat) : Bool :=
  m.aborted.contains c

/-- The initial progress snapshot `start` writes with the `running` state. -/
def startingProgress : TaskProgress :=
  { message := "Starting...", current := none, total := none }

/-- The bookkeeping `start` performs before writing `running`: allocate a
fresh `AbortController` (identity `m.nextCtrlId`), increment and record the
generation, and clear any leftover timer from a previous run. -/
def Manager.startCore (m : Manager) (taskId : String) : Manager :=
  ({ m with
     abortControllers := setKey m.abortControllers taskId m.nextCtrlId,
     nextCtrlId := m.nextCtrlId + 1,
     runGeneration := setKey m.runGeneration taskId
       ((lookupKey m.runGeneration taskId).getD 0 + 1)
   }).clearTimeoutOf taskId

/-- The timer scheduling at the end of `start`: when the task is configured
with a (truthy, i.e. non-zero) timeout, `setTimeout` registers a fresh
timer whose callback captures the task id, and its handle is recorded in
the `timeouts` map. -/
def Manager.scheduleTimer (m : Manager) (taskId : String)
    (task : RegisteredTask) : Manager :=
  match task.timeout with
  | some t =>
    if t != 0 then
      { m with
        timeouts := setKey m.timeouts taskId m.nextTimerId,
        timers := (m.nextTimerId, taskId) :: m.timers,
        nextTimerId := m.nextTimerId + 1 }
    else m
  | none => m

/-- `TaskManager.start`.  Returns the manager, the `RunHandle` captured by
the launched run's closures (`none` when the call was a no-op), and the
emitted `running` event.  No-op when the id is unknown or the task is
already running. -/
def Manager.start (m : Manager) (taskId : String) :
    Manager × Option RunHandle × Option TaskUpdateEvent :=
  match lookupKey m.tasks taskId, lookupKey m.state taskId with
  | some task, some currentState =>
    if currentState.status == .running then (m, none, none)
    else
      let r := (m.startCore taskId).setState taskId
        (.running taskId (some startingProgress))
      (r.1.scheduleTimer taskId task,
       some { generation := (lookupKey m.runGeneration taskId).getD 0 + 1,
              ctrl := m.nextCtrlId },
       r.2)
  | _, _ => (m, none, none)

/-- `TaskManager.cancel`:  no-op without an active controller; otherwise
aborts the controller, drops it, clears the timer and writes `canceled`. -/
def Manager.cancel (m : Manager) (taskId : String) (now : Nat) :
    Manager × Option TaskUpdateEvent :=
  match lookupKey m.abortControllers taskId with
  | none => (m, none)
  | some ctrl =>
    let m1 := { m with aborted := ctrl :: m.aborted }
    let m2 := { m1 with
      abortControllers := removeKey m1.abortControllers taskId }
    let m3 := m2.clearTimeoutOf taskId
    m3.setState taskId (.canceled taskId now)

/-- The `ctx.progress` closure created by `start`: ignored when the run is
stale or the stored status is no longer `running`. -/
def Manager.progressCall (m : Manager) (taskId : String) (h : RunHandle)
    (message : String) (current total : Option Nat) :
    Manager × Option TaskUpdateEvent :=
  if m.isStaleRun taskId h then (m, none)
  else
    match lookupKey m.state taskId with
    | some s =>
      if s.status == .running then
        m.setState taskId
          (.running taskId (some { message := message,
                                   current := current, total := total }))
      else (m, none)
    | none => (m, none)

/-- The settlement half of `runTask`: what the engine does when the handler's
promise fulfills or rejects — a non-canceled, non-stale success writes
`completed`, a non-canceled, non-stale failure writes `error`, and the
`finally` block releases the controller and timer unless the run is stale
(re-checking staleness after the write, as the source closure does). -/
def Manager.settle (m : Manager) (taskId : String) (h : RunHandle)
    (outcome : Settlement) (now : Nat) : Manager × Option TaskUpdateEvent :=
  let r :=
    match outcome with
    | .success =>
      if !m.ctrlAborted h.ctrl && !m.isStaleRun taskId h then
        m.setState taskId (.completed taskId now)
      else (m, none)
    | .failure msg =>
      if !m.ctrlAborted h.ctrl && !m.isStaleRun taskId h then
        m.setState taskId (.error taskId now msg)
      else (m, none)
  if !r.1.isStaleRun taskId h then
    let m2 := { r.1 with
      abortControllers := removeKey r.1.abortControllers taskId }
    (m2.clearTimeoutOf taskId, r.2)
  else r

/-- The timeout callback scheduled by `start`, as the JS event loop runs
it.  A timer fires at most once, and never after `clearTimeout` was called
on its handle; deleting the `timeouts` map entry alone (as eviction does)
does not stop it.  The callback captures only the task id: it returns
unless the task's stored status is `running`, and otherwise aborts the
current controller (looked up by id), drops it, deletes the `timeouts`
entry, and writes `timed_out` with `lastRun = now`. -/
def Manager.fireTimeout (m : Manager) (timerId : Nat) (now : Nat) :
    Manager × Option TaskUpdateEvent :=
  match lookupNat m.timers timerId with
  | none => (m, none)
  | some taskId =>
    if m.clearedTimers.contains timerId || m.firedTimers.contains timerId
    then (m, none)
    else
      let m0 := { m with firedTimers := timerId :: m.firedTimers }
      match lookupKey m0.state taskId with
      | some s =>
        if s.status != .running then (m0, none)
        else
          let m1 :=
            match lookupKey m0.abortControllers taskId with
            | some c => { m0 with aborted := c :: m0.aborted }
            | none => m0
          let m2 := { m1 with
            abortControllers := removeKey m1.abortControllers taskId }
          let m3 := { m2 with timeouts := removeKey m2.timeouts taskId }
          m3.setState taskId (.timed_out taskId now)
      | none => (m0, none)

/-- `getCurrentEventId`. -/
def Manager.getCurrentEventId (m : Manager) : Nat :=
  m.nextEventId - 1

/-- A junk default used for the (provably in-range) raw array indexing of
`getEventsSince`, mirroring `this.eventBuffer[i]`. -/
def dfltEvent : TaskUpdateEvent :=
  { taskId := "", state := .pending "", eventId := 0 }

/-- The `oldestIdx` computation of `getEventsSince`: while the ring is
still filling, the oldest entry sits at index `0`; once full, at
`ringHead`. -/
def Manager.oldestIdx (m : Manager) : Nat :=
  if m.eventBuffer.length < m.eventBufferSize then 0 else m.ringHead

/-- `getEventsSince`: `none` embeds the source's `undefined` ("cannot serve,
fall back to a full snapshot").  `lastEventId` is an `Int` because the SSE
handler parses it from an arbitrary client string with `Number(...)`. -/
def Manager.getEventsSince (m : Manager) (lastEventId : Int) :
    Option (List TaskUpdateEvent) :=
  if m.eventBufferSize = 0 then none
  else if m.eventBuffer.length = 0 then some []
  else if lastEventId
      < ((m.eventBuffer.getD m.oldestIdx dfltEvent).eventId : Int) - 1 then
    none
  else
    some ((List.range m.eventBuffer.length).filterMap (fun i =>
      if lastEventId < ((m.eventBuffer.getD
          ((m.oldestIdx + i) % m.eventBuffer.length) dfltEvent).eventId : Int)
      then some (m.eventBuffer.getD
          ((m.oldestIdx + i) % m.eventBuffer.length) dfltEvent)
      else none))

/-- The replay ring buffer read in ring order, oldest first — the order in
which `getEventsSince` walks it. -/
def Manager.ringList (m : Manager) : List TaskUpdateEvent :=
  (List.range m.eventBuffer.length).map (fun i =>
    m.eventBuffer.getD ((m.oldestIdx + i) % m.eventBuffer.length) dfltEvent)

/-- Structural well-formedness of the ring buffer, maintained by the
`setState` append discipline: the oldest index is in range, and the buffer
read in ring order carries strictly increasing event ids. -/
def Manager.BufferWF (m : Manager) : Prop :=
  (m.eventBuffer ≠ [] → m.oldestIdx < m.eventBuffer.length) ∧
  List.Chain' (fun a b : TaskUpdateEvent => a.eventId < b.eventId) m.ringList

/-! ## Subscribers -/

/-- A subscriber callback, as the engine sees it: invoked on an event, it
either returns or throws (`Except.error` with the thrown message).
Callbacks receive the event and return nothing to the engine. -/
def Subscriber : Type := TaskUpdateEvent → Except String Unit

/-- The fan-out loop of `setState` (`for (const callback of this.subscribers)
{ try { callback(event) } catch (error) { console.error(...) } }`): invokes
each subscriber in order, catching a throw per-subscriber and continuing
with the rest.  Returns what each invocation produced (`none` = returned,
`some msg` = threw `msg`, which was caught and logged). -/
def notifySubscribers : List Subscriber → TaskUpdateEvent → List (Option String)
  | [], _ => []
  | cb :: rest, event =>
    match cb event with
    | Except.ok _ => none :: notifySubscribers rest event
    | Except.error e => some e :: notifySubscribers rest event

/-- `setState` together with its subscriber fan-out, in source order (the
loop runs only when an event is emitted, i.e. after the guard accepted). -/
def Manager.setStateNotifying (m : Manager) (subs : List Subscriber)
    (taskId : String) (newState : TaskState) :
    Manager × Option TaskUpdateEvent × List (Option String) :=
  let r := m.setState taskId newState
  match r.2 with
  | none => (r.1, none, [])
  | some e => (r.1, some e, notifySubscribers subs e)

/-! ## Operation traces

An `Op` is one atomic engine mutation as scheduled by the host event loop:
a caller invoking `register`/`start`/`cancel`, a handler's `ctx.progress`
call, a handler settlement, or a timer firing.  Handles and times are chosen
by the scheduler, so a trace quantifies over every interleaving the runtime
could produce. -/

inductive Op where
  | reg (taskId : String) (timeout : Option Nat)
  | start (taskId : String)
  | cancel (taskId : String) (now : Nat)
  | progress (taskId : String) (h : RunHandle) (message : String)
      (current total : Option Nat)
  | settle (taskId : String) (h : RunHandle) (outcome : Settlement) (now : Nat)
  | fire (timerId : Nat) (now : Nat)
deriving DecidableEq, Repr

/-- Apply one operation; a duplicate `register` throws to its caller and
mutates nothing. -/
def Manager.applyOp (m : Manager) (op : Op) : Manager × Option TaskUpdateEvent :=
  match op with
  | .reg taskId t =>
    match m.register taskId t with
    | .ok m' => (m', none)
    | .error _ => (m, none)
  | .start taskId =>
    let r := m.start taskId
    (r.1, r.2.2)
  | .cancel taskId now => m.cancel taskId now
  | .progress taskId h msg c t => m.progressCall taskId h msg c t
  | .settle taskId h outcome now => m.settle taskId h outcome now
  | .fire timerId now => m.fireTimeout timerId now

/-- Run a list of operations, collecting every event delivered to
subscribers, in delivery order. -/
def Manager.runOps (m : Manager) (ops : List Op) :
    Manager × List TaskUpdateEvent :=
  match ops with
  | [] => (m, [])
  | op :: rest =>
    let r := m.applyOp op
    let r' := r.1.runOps rest
    (r'.1, r.2.toList ++ r'.2)

/-- Convenience for building concrete managers in closed statements:
`register`, keeping the manager unchanged when it throws (exactly what a
caller that lets the exception propagate observes of the engine state). -/
def registerD (m : Manager) (taskId : String) (t : Option Nat) : Manager :=
  (m.register taskId t).toOption.getD m

/-! ## Frame and characterization lemmas for the engine operations -/

theorem lookup_foldRemove {α : Type} (ids : List String)
    (l : List (String × α)) (k : String) :
    lookupKey (ids.foldl (fun st k' => removeKey st k') l) k
      = if k ∈ ids then none else lookupKey l k := by
  induction ids generalizing l with
  | nil => simp
  | cons i ids ih =>
    rw [List.foldl_cons, ih]
    by_cases hk : k ∈ ids
    · simp [hk]
    · by_cases hki : k = i
      · subst hki
        simp [hk]
      · simp [hk, hki, lookupKey_removeKey_other _ _ _ hki]

/-- The eviction fold acts componentwise: each of the five maps gets the
same iterated `removeKey`, and every other field is untouched. -/
theorem foldRemove_eq (l : List (String × Nat)) (m : Manager) :
    l.foldl (fun acc p => removeFromAllMaps acc p.1) m
      = { m with
          tasks := (l.map Prod.fst).foldl (fun st k => removeKey st k) m.tasks,
          state := (l.map Prod.fst).foldl (fun st k => removeKey st k) m.state,
          abortControllers :=
            (l.map Prod.fst).foldl (fun st k => removeKey st k)
              m.abortControllers,
          runGeneration :=
            (l.map Prod.fst).foldl (fun st k => removeKey st k)
              m.runGeneration,
          timeouts :=
            (l.map Prod.fst).foldl (fun st k => removeKey st k) m.timeouts } := by
  induction l generalizing m with
  | nil => rfl
  | cons p l ih =>
    rw [List.foldl_cons, ih]
    rfl

/-- `evictOldTasks` either does nothing, or removes exactly the keys of
`evictList` from the five maps (and nothing else). -/
theorem evict_eq (m : Manager) :
    m.evictOldTasks = m ∨
    m.evictOldTasks
      = { m with
          tasks := (m.evictList.map Prod.fst).foldl
            (fun st k => removeKey st k) m.tasks,
          state := (m.evictList.map Prod.fst).foldl
            (fun st k => removeKey st k) m.state,
          abortControllers := (m.evictList.map Prod.fst).foldl
            (fun st k => removeKey st k) m.abortControllers,
          runGeneration := (m.evictList.map Prod.fst).foldl
            (fun st k => removeKey st k) m.runGeneration,
          timeouts := (m.evictList.map Prod.fst).foldl
            (fun st k => removeKey st k) m.timeouts } := by
  unfold Manager.evictOldTasks
  by_cases h0 : m.maxHistory = 0
  · left; simp [h0]
  · by_cases h1 : (terminalEntries m.state).length ≤ m.maxHistory
    · left; simp [h0, h1]
    · right; simp [h0, h1, foldRemove_eq]

@[simp] theorem evict_aborted (m : Manager) :
    (m.evictOldTasks).aborted = m.aborted := by
  rcases evict_eq m with h | h <;> rw [h]

@[simp] theorem evict_nextCtrlId (m : Manager) :
    (m.evictOldTasks).nextCtrlId = m.nextCtrlId := by
  rcases evict_eq m with h | h <;> rw [h]

@[simp] theorem evict_nextTimerId (m : Manager) :
    (m.evictOldTasks).nextTimerId = m.nextTimerId := by
  rcases evict_eq m with h | h <;> rw [h]

@[simp] theorem evict_firedTimers (m : Manager) :
    (m.evictOldTasks).firedTimers = m.firedTimers := by
  rcases evict_eq m with h | h <;> rw [h]

@[simp] theorem evict_maxHistory (m : Manager) :
    (m.evictOldTasks).maxHistory = m.maxHistory := by
  rcases evict_eq m with h | h <;> rw [h]

@[simp] theorem evict_eventBufferSize (m : Manager) :
    (m.evictOldTasks).eventBufferSize = m.eventBufferSize := by
  rcases evict_eq m with h | h <;> rw [h]

@[simp] theorem evict_debug (m : Manager) :
    (m.evictOldTasks).debug = m.debug := by
  rcases evict_eq m with h | h <;> rw [h]

@[simp] theorem evict_nextEventId (m : Manager) :
    (m.evictOldTasks).nextEventId = m.nextEventId := by
  rcases evict_eq m with h | h <;> rw [h]

@[simp] theorem evict_eventBuffer (m : Manager) :
    (m.evictOldTasks).eventBuffer = m.eventBuffer := by
  rcases evict_eq m with h | h <;> rw [h]

@[simp] theorem evict_ringHead (m : Manager) :
    (m.evictOldTasks).ringHead = m.ringHead := by
  rcases evict_eq m with h | h <;> rw [h]

@[simp] theorem evict_timers (m : Manager) :
    (m.evictOldTasks).timers = m.timers := by
  rcases evict_eq m with h | h <;> rw [h]

@[simp] theorem evict_clearedTimers (m : Manager) :
    (m.evictOldTasks).clearedTimers = m.clearedTimers := by
  rcases evict_eq m with h | h <;> rw [h]

/-- Eviction removes a task from all five maps together, or touches none of
its entries: for every key, either every lookup is as before, or the key
was evicted and every lookup is `none`. -/
theorem evict_lookup (m : Manager) (k : String) :
    (lookupKey (m.evictOldTasks).tasks k = lookupKey m.tasks k ∧
     lookupKey (m.evictOldTasks).state k = lookupKey m.state k ∧
     lookupKey (m.evictOldTasks).abortControllers k
        = lookupKey m.abortControllers k ∧
     lookupKey (m.evictOldTasks).runGeneration k
        = lookupKey m.runGeneration k ∧
     lookupKey (m.evictOldTasks).timeouts k = lookupKey m.timeouts k) ∨
    (lookupKey (m.evictOldTasks).tasks k = none ∧
     lookupKey (m.evictOldTasks).state k = none ∧
     lookupKey (m.evictOldTasks).abortControllers k = none ∧
     lookupKey (m.evictOldTasks).runGeneration k = none ∧
     lookupKey (m.evictOldTasks).timeouts k = none) := by
  rcases evict_eq m with h | h
  · rw [h]; left; exact ⟨rfl, rfl, rfl, rfl, rfl⟩
  · rw [h]
    simp only [lookup_foldRemove]
    by_cases hk : k ∈ m.evictList.map Prod.fst
    · right; simp [hk]
    · left; simp [hk]

@[simp] theorem applyWrite_tasks (m : Manager) (taskId : String)
    (ns : TaskState) : (m.applyWrite taskId ns).tasks = m.tasks := by
  unfold Manager.applyWrite
  repeat' split
  all_goals rfl

@[simp] theorem applyWrite_state (m : Manager) (taskId : String)
    (ns : TaskState) :
    (m.applyWrite taskId ns).state = setKey m.state taskId ns := by
  unfold Manager.applyWrite
  repeat' split
  all_goals rfl

@[simp] theorem applyWrite_abortControllers (m : Manager) (taskId : String)
    (ns : TaskState) :
    (m.applyWrite taskId ns).abortControllers = m.abortControllers := by
  unfold Manager.applyWrite
  repeat' split
  all_goals rfl

@[simp] theorem applyWrite_runGeneration (m : Manager) (taskId : String)
    (ns : TaskState) :
    (m.applyWrite taskId ns).runGeneration = m.runGeneration := by
  unfold Manager.applyWrite
  repeat' split
  all_goals rfl

@[simp] theorem applyWrite_timeouts (m : Manager) (taskId : String)
    (ns : TaskState) : (m.applyWrite taskId ns).timeouts = m.timeouts := by
  unfold Manager.applyWrite
  repeat' split
  all_goals rfl

@[simp] theorem applyWrite_aborted (m : Manager) (taskId : String)
    (ns : TaskState) : (m.applyWrite taskId ns).aborted = m.aborted := by
  unfold Manager.applyWrite
  repeat' split
  all_goals rfl

@[simp] theorem applyWrite_nextCtrlId (m : Manager) (taskId : String)
    (ns : TaskState) : (m.applyWrite taskId ns).nextCtrlId = m.nextCtrlId := by
  unfold Manager.applyWrite
  repeat' split
  all_goals rfl

@[simp] theorem applyWrite_nextTimerId (m : Manager) (taskId : String)
    (ns : TaskState) :
    (m.applyWrite taskId ns).nextTimerId = m.nextTimerId := by
  unfold Manager.applyWrite
  repeat' split
  all_goals rfl

@[simp] theorem applyWrite_firedTimers (m : Manager) (taskId : String)
    (ns : TaskState) :
    (m.applyWrite taskId ns).firedTimers = m.firedTimers := by
  unfold Manager.applyWrite
  repeat' split
  all_goals rfl

@[simp] theorem applyWrite_maxHistory (m : Manager) (taskId : String)
    (ns : TaskState) : (m.applyWrite taskId ns).maxHistory = m.maxHistory := by
  unfold Manager.applyWrite
  repeat' split
  all_goals rfl

@[simp] theorem applyWrite_eventBufferSize (m : Manager) (taskId : String)
    (ns : TaskState) :
    (m.applyWrite taskId ns).eventBufferSize = m.eventBufferSize := by
  unfold Manager.applyWrite
  repeat' split
  all_goals rfl

@[simp] theorem applyWrite_debug (m : Manager) (taskId : String)
    (ns : TaskState) : (m.applyWrite taskId ns).debug = m.debug := by
  unfold Manager.applyWrite
  repeat' split
  all_goals rfl

@[simp] theorem applyWrite_nextEventId (m : Manager) (taskId : String)
    (ns : TaskState) :
    (m.applyWrite taskId ns).nextEventId = m.nextEventId + 1 := by
  unfold Manager.applyWrite
  repeat' split
  all_goals rfl

@[simp] theorem applyWrite_timers (m : Manager) (taskId : String)
    (ns : TaskState) : (m.applyWrite taskId ns).timers = m.timers := by
  unfold Manager.applyWrite
  repeat' split
  all_goals rfl

@[simp] theorem applyWrite_clearedTimers (m : Manager) (taskId : String)
    (ns : TaskState) :
    (m.applyWrite taskId ns).clearedTimers = m.clearedTimers := by
  unfold Manager.applyWrite
  repeat' split
  all_goals rfl

@[simp] theorem setState_aborted (m : Manager) (taskId : String)
    (ns : TaskState) : ((m.setState taskId ns).1).aborted = m.aborted := by
  unfold Manager.setState
  cases h : lookupKey m.state taskId
  · rfl
  · dsimp only
    split
    · rfl
    · dsimp only
      split <;> simp

@[simp] theorem setState_nextCtrlId (m : Manager) (taskId : String)
    (ns : TaskState) :
    ((m.setState taskId ns).1).nextCtrlId = m.nextCtrlId := by
  unfold Manager.setState
  cases h : lookupKey m.state taskId
  · rfl
  · dsimp only
    split
    · rfl
    · dsimp only
      split <;> simp

@[simp] theorem setState_nextTimerId (m : Manager) (taskId : String)
    (ns : TaskState) :
    ((m.setState taskId ns).1).nextTimerId = m.nextTimerId := by
  unfold Manager.setState
  cases h : lookupKey m.state taskId
  · rfl
  · dsimp only
    split
    · rfl
    · dsimp only
      split <;> simp

@[simp] theorem setState_firedTimers (m : Manager) (taskId : String)
    (ns : TaskState) :
    ((m.setState taskId ns).1).firedTimers = m.firedTimers := by
  unfold Manager.setState
  cases h : lookupKey m.state taskId
  · rfl
  · dsimp only
    split
    · rfl
    · dsimp only
      split <;> simp

@[simp] theorem setState_maxHistory (m : Manager) (taskId : String)
    (ns : TaskState) :
    ((m.setState taskId ns).1).maxHistory = m.maxHistory := by
  unfold Manager.setState
  cases h : lookupKey m.state taskId
  · rfl
  · dsimp only
    split
    · rfl
    · dsimp only
      split <;> simp

@[simp] theorem setState_eventBufferSize (m : Manager) (taskId : String)
    (ns : TaskState) :
    ((m.setState taskId ns).1).eventBufferSize = m.eventBufferSize := by
  unfold Manager.setState
  cases h : lookupKey m.state taskId
  · rfl
  · dsimp only
    split
    · rfl
    · dsimp only
      split <;> simp

@[simp] theorem setState_debug (m : Manager) (taskId : String)
    (ns : TaskState) : ((m.setState taskId ns).1).debug = m.debug := by
  unfold Manager.setState
  cases h : lookupKey m.state taskId
  · rfl
  · dsimp only
    split
    · rfl
    · dsimp only
      split <;> simp

@[simp] theorem setState_timers (m : Manager) (taskId : String)
    (ns : TaskState) : ((m.setState taskId ns).1).timers = m.timers := by
  unfold Manager.setState
  cases h : lookupKey m.state taskId
  · rfl
  · dsimp only
    split
    · rfl
    · dsimp only
      split <;> simp

@[simp] theorem setState_clearedTimers (m : Manager) (taskId : String)
    (ns : TaskState) :
    ((m.setState taskId ns).1).clearedTimers = m.clearedTimers := by
  unfold Manager.setState
  cases h : lookupKey m.state taskId
  · rfl
  · dsimp only
    split
    · rfl
    · dsimp only
      split <;> simp

/-- `setState` either accepts (emitting the event stamped with the current
`nextEventId` and bumping the counter) or is a no-op returning the manager
unchanged. -/
theorem setState_cases (m : Manager) (taskId : String) (ns : TaskState) :
    (m.setState taskId ns = (m, none)) ∨
    ((m.setState taskId ns).2
        = some { taskId := taskId, state := ns, eventId := m.nextEventId } ∧
     ((m.setState taskId ns).1).nextEventId = m.nextEventId + 1) := by
  unfold Manager.setState
  cases h : lookupKey m.state taskId
  · left; rfl
  · dsimp only
    split
    · left; rfl
    · right
      constructor
      · rfl
      · dsimp only
        split <;> simp

/-- On acceptance, `setState` emits the event stamped with the current
`nextEventId`, bumps the counter by one, and stores the new state (which
only an immediate eviction of the task itself can subsequently remove). -/
theorem setState_accept (m : Manager) (taskId : String) (ns : TaskState)
    (cur : TaskState) (hcur : lookupKey m.state taskId = some cur)
    (hg : ((cur.status == TaskStatus.canceled
        || cur.status == TaskStatus.timed_out)
        && ns.status != cur.status && ns.status != TaskStatus.running)
      = false) :
    (m.setState taskId ns).2
        = some { taskId := taskId, state := ns, eventId := m.nextEventId } ∧
    ((m.setState taskId ns).1).nextEventId = m.nextEventId + 1 ∧
    (lookupKey ((m.setState taskId ns).1).state taskId = some ns ∨
      lookupKey ((m.setState taskId ns).1).state taskId = none) := by
  unfold Manager.setState
  rw [hcur]
  simp only [hg, Bool.false_eq_true, if_false]
  refine ⟨trivial, ?_, ?_⟩
  · dsimp only
    split <;> simp
  · dsimp only
    split
    · rcases evict_lookup (m.applyWrite taskId ns) taskId with he | he
      · left
        rw [he.2.1, applyWrite_state, lookupKey_setKey_self]
      · right
        exact he.2.1
    · left
      rw [applyWrite_state, lookupKey_setKey_self]

/-- For keys other than the written one, a `setState` lookup in any of the
five maps is either unchanged or `none` (removed by eviction); for the four
maps other than `state` this holds for the written key as well. -/
theorem setState_lookup_other (m : Manager) (taskId : String) (ns : TaskState)
    (k : String) :
    ((lookupKey ((m.setState taskId ns).1).tasks k = lookupKey m.tasks k ∧
      lookupKey ((m.setState taskId ns).1).abortControllers k
        = lookupKey m.abortControllers k ∧
      lookupKey ((m.setState taskId ns).1).runGeneration k
        = lookupKey m.runGeneration k ∧
      lookupKey ((m.setState taskId ns).1).timeouts k
        = lookupKey m.timeouts k) ∨
     (lookupKey ((m.setState taskId ns).1).tasks k = none ∧
      lookupKey ((m.setState taskId ns).1).abortControllers k = none ∧
      lookupKey ((m.setState taskId ns).1).runGeneration k = none ∧
      lookupKey ((m.setState taskId ns).1).timeouts k = none)) ∧
    (k ≠ taskId →
      (lookupKey ((m.setState taskId ns).1).state k = lookupKey m.state k ∨
       lookupKey ((m.setState taskId ns).1).state k = none)) := by
  unfold Manager.setState
  cases h : lookupKey m.state taskId
  · exact ⟨Or.inl ⟨rfl, rfl, rfl, rfl⟩, fun _ => Or.inl rfl⟩
  · dsimp only
    split
    · exact ⟨Or.inl ⟨rfl, rfl, rfl, rfl⟩, fun _ => Or.inl rfl⟩
    · dsimp only
      split
      · constructor
        · rcases evict_lookup (m.applyWrite taskId ns) k with he | he
          · left
            refine ⟨?_, ?_, ?_, ?_⟩ <;> simp [he.1, he.2.2.1, he.2.2.2.1,
              he.2.2.2.2]
          · right
            exact ⟨he.1, he.2.2.1, he.2.2.2.1, he.2.2.2.2⟩
        · intro hk
          rcases evict_lookup (m.applyWrite taskId ns) k with he | he
          · left
            rw [he.2.1, applyWrite_state,
              lookupKey_setKey_other _ _ _ _ hk]
          · right
            exact he.2.1
      · refine ⟨Or.inl ⟨by simp, by simp, by simp, by simp⟩,
          fun hk => Or.inl ?_⟩
        rw [applyWrite_state, lookupKey_setKey_other _ _ _ _ hk]

/-- `clearTimeoutOf` touches only the `timeouts` map, where it removes the
task's entry. -/
theorem clearTimeoutOf_spec (m : Manager) (taskId : String) :
    (m.clearTimeoutOf taskId).tasks = m.tasks ∧
    (m.clearTimeoutOf taskId).state = m.state ∧
    (m.clearTimeoutOf taskId).abortControllers = m.abortControllers ∧
    (m.clearTimeoutOf taskId).runGeneration = m.runGeneration ∧
    (m.clearTimeoutOf taskId).aborted = m.aborted ∧
    (m.clearTimeoutOf taskId).nextEventId = m.nextEventId ∧
    (m.clearTimeoutOf taskId).eventBuffer = m.eventBuffer ∧
    (m.clearTimeoutOf taskId).ringHead = m.ringHead ∧
    (m.clearTimeoutOf taskId).nextCtrlId = m.nextCtrlId ∧
    (m.clearTimeoutOf taskId).nextTimerId = m.nextTimerId ∧
    (m.clearTimeoutOf taskId).firedTimers = m.firedTimers ∧
    (m.clearTimeoutOf taskId).maxHistory = m.maxHistory ∧
    (m.clearTimeoutOf taskId).eventBufferSize = m.eventBufferSize ∧
    (m.clearTimeoutOf taskId).debug = m.debug ∧
    lookupKey (m.clearTimeoutOf taskId).timeouts taskId = none ∧
    (∀ k, k ≠ taskId →
      lookupKey (m.clearTimeoutOf taskId).timeouts k
        = lookupKey m.timeouts k) := by
  unfold Manager.clearTimeoutOf
  cases h : lookupKey m.timeouts taskId <;>
    simp_all [lookupKey_removeKey_other]


/-! ## Claims -/

/-- C10: `setState` on an id with no entry in the state map (never
registered, evicted, or removed by teardown) is a complete no-op — the
manager is returned unchanged (so no state write, no event-id consumption,
no buffer append) and no subscriber is invoked. -/
theorem c10_setState_unknown_id_noop (m : Manager) (subs : List Subscriber)
    (taskId : String) (ns : TaskState)
    (h : lookupKey m.state taskId = none) :
    m.setState taskId ns = (m, none) ∧
    m.setStateNotifying subs taskId ns = (m, none, []) := by
  constructor
  · simp [Manager.setState, h]
  · simp [Manager.setStateNotifying, Manager.setState, h]

/-- Witness for C10 at a concrete input. -/
theorem c10_setState_unknown_id_noop_witness :
    (mkManager false 0 0).setState "job" (.pending "job")
        = (mkManager false 0 0, none) ∧
    (mkManager false 0 0).setStateNotifying [] "job" (.pending "job")
        = (mkManager false 0 0, none, []) :=
  c10_setState_unknown_id_noop (mkManager false 0 0) [] "job" (.pending "job")
    (by decide)

/-- C2: when the currently stored status is `canceled` or `timed_out`,
`setState` rejects (returns the manager unchanged and emits no event for)
any proposed transition whose new status both differs from the current
status and is not `running`; a proposed `running` state (a fresh start) or a
same-status repeat is accepted — the event is emitted (and for `running`,
which is not terminal and hence triggers no eviction, the new state is the
one stored). -/
theorem c2_terminal_guard (m : Manager) (taskId : String) (cur ns : TaskState)
    (hcur : lookupKey m.state taskId = some cur)
    (hterm : cur.status = .canceled ∨ cur.status = .timed_out) :
    (ns.status ≠ cur.status → ns.status ≠ .running →
      m.setState taskId ns = (m, none)) ∧
    (ns.status = .running →
      (m.setState taskId ns).2
          = some { taskId := taskId, state := ns, eventId := m.nextEventId } ∧
      lookupKey (m.setState taskId ns).1.state taskId = some ns) ∧
    (ns.status = cur.status →
      (m.setState taskId ns).2
          = some { taskId := taskId, state := ns, eventId := m.nextEventId }) := by
  refine ⟨fun hne hnr => ?_, fun hrun => ?_, fun hsame => ?_⟩
  · have hg : ((cur.status == TaskStatus.canceled
        || cur.status == TaskStatus.timed_out)
        && ns.status != cur.status && ns.status != TaskStatus.running) = true := by
      rcases hterm with h | h <;> rw [h] at hne <;>
        simp [h, bne_iff_ne, hne, hnr]
    simp [Manager.setState, hcur, hg]
  · have hg : ((cur.status == TaskStatus.canceled
        || cur.status == TaskStatus.timed_out)
        && ns.status != cur.status && ns.status != TaskStatus.running) = false := by
      simp [hrun]
    have hnt : ns.status.isTerminal = false := by
      simp [hrun, TaskStatus.isTerminal, TERMINAL_STATUSES]
    constructor
    · simp [Manager.setState, hcur, hg, hnt]
    · simp only [Manager.setState, hcur, hg, hnt]
      repeat' split
      all_goals simp_all
  · have hg : ((cur.status == TaskStatus.canceled
        || cur.status == TaskStatus.timed_out)
        && ns.status != cur.status && ns.status != TaskStatus.running) = false := by
      simp [hsame]
    simp [Manager.setState, hcur, hg]

/-- A concrete manager whose task `"job"` is stored as `canceled`. -/
def c2m : Manager :=
  { mkManager false 0 0 with state := [("job", .canceled "job" 5)] }

/-- Witness for C2 at concrete inputs: `c2m` rejects a late `completed`,
accepts a fresh `running`, and accepts a repeated `canceled`. -/
theorem c2_terminal_guard_witness :
    (c2m.setState "job" (.completed "job" 9) = (c2m, none)) ∧
    ((c2m.setState "job" (.running "job" none)).2
        = some { taskId := "job", state := .running "job" none,
                 eventId := c2m.nextEventId } ∧
      lookupKey (c2m.setState "job" (.running "job" none)).1.state "job"
        = some (.running "job" none)) ∧
    ((c2m.setState "job" (.canceled "job" 8)).2
        = some { taskId := "job", state := .canceled "job" 8,
                 eventId := c2m.nextEventId }) :=
  ⟨(c2_terminal_guard c2m "job" (.canceled "job" 5) (.completed "job" 9)
      (by decide) (Or.inl rfl)).1 (by decide) (by decide),
   (c2_terminal_guard c2m "job" (.canceled "job" 5) (.running "job" none)
      (by decide) (Or.inl rfl)).2.1 rfl,
   (c2_terminal_guard c2m "job" (.canceled "job" 5) (.canceled "job" 8)
      (by decide) (Or.inl rfl)).2.2 rfl⟩

/-- C5: `register` throws on a duplicate id (returning `Except.error`, so
the caller gets the exception and no new engine state — nothing was
mutated); on a fresh id it succeeds, stores the descriptor, seeds the state
as `pending` (so `getState` immediately afterwards is
`{id, status: "pending"}`), and touches nothing else. -/
theorem c5_register (m : Manager) (taskId : String) (t : Option Nat) :
    (hasKey m.tasks taskId = true →
      m.register taskId t
        = Except.error ("Task \x22" ++ taskId ++ "\x22 is already registered")) ∧
    (hasKey m.tasks taskId = false →
      ∃ m', m.register taskId t = Except.ok m' ∧
        m'.getState taskId = some (.pending taskId) ∧
        m'.tasks = setKey m.tasks taskId { id := taskId, timeout := t } ∧
        m'.state = setKey m.state taskId (.pending taskId) ∧
        m'.abortControllers = m.abortControllers ∧
        m'.runGeneration = m.runGeneration ∧
        m'.timeouts = m.timeouts ∧
        m'.eventBuffer = m.eventBuffer ∧
        m'.ringHead = m.ringHead ∧
        m'.nextEventId = m.nextEventId ∧
        m'.aborted = m.aborted) := by
  constructor
  · intro h
    simp [Manager.register, h]
  · intro h
    refine ⟨{ m with
        tasks := setKey m.tasks taskId { id := taskId, timeout := t },
        state := setKey m.state taskId (.pending taskId) },
      ?_, ?_, rfl, rfl, rfl, rfl, rfl, rfl, rfl, rfl, rfl⟩
    · simp [Manager.register, h]
    · simp [Manager.getState]

/-- Witness for C5 at concrete inputs: registering `"job"` twice — the
first call succeeds and seeds `pending`, the second throws. -/
theorem c5_register_witness :
    (∃ m', (mkManager false 0 0).register "job" none = Except.ok m' ∧
        m'.getState "job" = some (.pending "job") ∧
        m'.tasks = setKey (mkManager false 0 0).tasks "job"
          { id := "job", timeout := none } ∧
        m'.state = setKey (mkManager false 0 0).state "job" (.pending "job") ∧
        m'.abortControllers = (mkManager false 0 0).abortControllers ∧
        m'.runGeneration = (mkManager false 0 0).runGeneration ∧
        m'.timeouts = (mkManager false 0 0).timeouts ∧
        m'.eventBuffer = (mkManager false 0 0).eventBuffer ∧
        m'.ringHead = (mkManager false 0 0).ringHead ∧
        m'.nextEventId = (mkManager false 0 0).nextEventId ∧
        m'.aborted = (mkManager false 0 0).aborted) ∧
    (registerD (mkManager false 0 0) "job" none).register "job" (some 5)
      = Except.error ("Task \x22job\x22 is already registered") :=
  ⟨(c5_register (mkManager false 0 0) "job" none).2 (by decide),
   (c5_register (registerD (mkManager false 0 0) "job" none) "job" (some 5)).1
      (by decide)⟩

@[simp] theorem notifySubscribers_nil (e : TaskUpdateEvent) :
    notifySubscribers [] e = [] := rfl

theorem notifySubscribers_cons (c : Subscriber) (l : List Subscriber)
    (e : TaskUpdateEvent) :
    notifySubscribers (c :: l) e
      = (match c e with
         | Except.ok _ => none
         | Except.error msg => some msg) :: notifySubscribers l e := by
  cases h : c e <;> simp [notifySubscribers, h]

/-- C9: a subscriber callback that throws is caught per-subscriber: it does
not prevent delivery of the event to the remaining subscribers (the fan-out
over `pre ++ cb :: post` always invokes `cb` and then every callback of
`post`), every subscriber is invoked exactly once (one outcome per
subscriber, in order), the loop itself returns normally to `setState`'s
caller, and the engine state and emitted event are unaffected by what any
subscriber does. -/
theorem c9_subscriber_isolation (pre post subs : List Subscriber)
    (cb : Subscriber) (e : TaskUpdateEvent) (m : Manager) (taskId : String)
    (ns : TaskState) :
    notifySubscribers (pre ++ cb :: post) e
      = notifySubscribers pre e
        ++ (match cb e with
            | Except.ok _ => none
            | Except.error msg => some msg) :: notifySubscribers post e ∧
    (notifySubscribers subs e).length = subs.length ∧
    (m.setStateNotifying subs taskId ns).1 = (m.setState taskId ns).1 ∧
    (m.setStateNotifying subs taskId ns).2.1 = (m.setState taskId ns).2 := by
  refine ⟨?_, ?_, ?_, ?_⟩
  · induction pre with
    | nil =>
      rw [List.nil_append, notifySubscribers_cons, notifySubscribers_nil,
        List.nil_append]
    | cons c rest ih =>
      rw [List.cons_append, notifySubscribers_cons, notifySubscribers_cons,
        ih, List.cons_append]
  · induction subs with
    | nil => rfl
    | cons c rest ih =>
      rw [notifySubscribers_cons, List.length_cons, List.length_cons, ih]
  · unfold Manager.setStateNotifying
    cases h : (m.setState taskId ns).2 <;> simp [h]
  · unfold Manager.setStateNotifying
    cases h : (m.setState taskId ns).2 <;> simp [h]

/-- On an active controller, `cancel` is: abort the controller, drop it,
clear the timer, then `setState(canceled)`. -/
theorem cancel_eq (m : Manager) (taskId : String) (now : Nat) (ctrl : Nat)
    (hctrl : lookupKey m.abortControllers taskId = some ctrl) :
    m.cancel taskId now
      = (({ m with
            aborted := ctrl :: m.aborted,
            abortControllers := removeKey m.abortControllers taskId
          }).clearTimeoutOf taskId).setState taskId
          (.canceled taskId now) := by
  unfold Manager.cancel
  rw [hctrl]

/-- After its controller has been aborted, a run's settlement writes no
state and emits no event (the `finally` block may still release the
controller and timer, which does not touch the state map). -/
theorem settle_canceled_no_write (m : Manager) (taskId : String)
    (h : RunHandle) (hc : m.ctrlAborted h.ctrl = true)
    (outcome : Settlement) (now : Nat) :
    (m.settle taskId h outcome now).1.state = m.state ∧
    (m.settle taskId h outcome now).2 = none := by
  unfold Manager.settle
  cases outcome <;>
    simp only [hc, Bool.not_true, Bool.false_and, Bool.false_eq_true,
      if_false] <;>
  · split
    · exact ⟨(clearTimeoutOf_spec _ _).2.1, rfl⟩
    · exact ⟨rfl, rfl⟩

/-- C3: `cancel(id)` is a no-op when no active cancellation token exists for
`id`; otherwise it triggers the token, drops the controller reference,
clears the timer, and transitions the task to `canceled` with `lastRun`
equal to the current time (delivered to subscribers; the stored entry can
only disappear through an immediate eviction), and if the handler of the
canceled run later completes or throws, its settlement writes no state at
all — the stored state is not overwritten. -/
theorem c3_cancel (m : Manager) (taskId : String) (now : Nat) :
    (lookupKey m.abortControllers taskId = none →
      m.cancel taskId now = (m, none)) ∧
    (∀ ctrl cur, lookupKey m.abortControllers taskId = some ctrl →
      lookupKey m.state taskId = some cur → cur.status = .running →
      (m.cancel taskId now).2
          = some { taskId := taskId, state := .canceled taskId now,
                   eventId := m.nextEventId } ∧
      ((m.cancel taskId now).1).ctrlAborted ctrl = true ∧
      lookupKey ((m.cancel taskId now).1).abortControllers taskId = none ∧
      lookupKey ((m.cancel taskId now).1).timeouts taskId = none ∧
      (lookupKey ((m.cancel taskId now).1).state taskId
          = some (.canceled taskId now) ∨
       lookupKey ((m.cancel taskId now).1).state taskId = none) ∧
      (∀ hRun : RunHandle, hRun.ctrl = ctrl → ∀ outcome now',
        (((m.cancel taskId now).1).settle taskId hRun outcome now').1.state
            = ((m.cancel taskId now).1).state ∧
        (((m.cancel taskId now).1).settle taskId hRun outcome now').2
            = none)) := by
  constructor
  · intro h
    unfold Manager.cancel
    rw [h]
  · intro ctrl cur hctrl hcur hrun
    rw [cancel_eq m taskId now ctrl hctrl]
    obtain ⟨e1, e2, e3, e4, e5, e6, e7, e8, e9, e10, e11, e12, e13, e14,
        e15, e16⟩ :=
      clearTimeoutOf_spec
        { m with
          aborted := ctrl :: m.aborted,
          abortControllers := removeKey m.abortControllers taskId } taskId
    have hg : ((cur.status == TaskStatus.canceled
        || cur.status == TaskStatus.timed_out)
        && (TaskState.canceled taskId now).status != cur.status
        && (TaskState.canceled taskId now).status != TaskStatus.running)
          = false := by
      rw [hrun]; rfl
    have hacc := setState_accept _ taskId (.canceled taskId now) cur
      (by rw [e2]; exact hcur) hg
    refine ⟨?_, ?_, ?_, ?_, hacc.2.2, ?_⟩
    · rw [hacc.1, e6]
    · rw [Manager.ctrlAborted, setState_aborted, e5]
      simp
    · rcases (setState_lookup_other _ taskId (.canceled taskId now)
          taskId).1 with he | he
      · rw [he.2.1, e3]
        exact lookupKey_removeKey_self _ _
      · exact he.2.1
    · rcases (setState_lookup_other _ taskId (.canceled taskId now)
          taskId).1 with he | he
      · rw [he.2.2.2, e15]
      · exact he.2.2.2
    · intro hRun hrc outcome now'
      apply settle_canceled_no_write
      rw [Manager.ctrlAborted, setState_aborted, e5, hrc]
      simp

/-- A concrete manager with `"job"` registered and running (controller `0`,
generation `1`). -/
def c3m : Manager :=
  ((registerD (mkManager false 0 0) "job" none).start "job").1

/-- Witness for C3 at concrete inputs. -/
theorem c3_cancel_witness :
    ((mkManager false 0 0).cancel "job" 5 = (mkManager false 0 0, none)) ∧
    ((c3m.cancel "job" 7).2
        = some { taskId := "job", state := .canceled "job" 7,
                 eventId := c3m.nextEventId } ∧
      ((c3m.cancel "job" 7).1).ctrlAborted 0 = true ∧
      lookupKey ((c3m.cancel "job" 7).1).abortControllers "job" = none ∧
      lookupKey ((c3m.cancel "job" 7).1).timeouts "job" = none ∧
      (lookupKey ((c3m.cancel "job" 7).1).state "job"
          = some (.canceled "job" 7) ∨
       lookupKey ((c3m.cancel "job" 7).1).state "job" = none) ∧
      ((((c3m.cancel "job" 7).1).settle "job"
            { generation := 1, ctrl := 0 } .success 42).1.state
          = ((c3m.cancel "job" 7).1).state ∧
        (((c3m.cancel "job" 7).1).settle "job"
            { generation := 1, ctrl := 0 } .success 42).2 = none)) :=
  ⟨(c3_cancel (mkManager false 0 0) "job" 5).1 (by decide),
   by
    have h := (c3_cancel c3m "job" 7).2 0
      (.running "job" (some { message := "Starting...", current := none,
                              total := none }))
      (by decide) (by decide) rfl
    exact ⟨h.1, h.2.1, h.2.2.1, h.2.2.2.1, h.2.2.2.2.1,
      h.2.2.2.2.2 { generation := 1, ctrl := 0 } rfl .success 42⟩⟩


/-- On a live (never cleared, never fired) timer whose captured task is
still `running` with an active controller, the timeout callback is: consume
the timer, abort and drop the current controller, forget the `timeouts`
entry, then `setState(timed_out)`. -/
theorem fireTimeout_pos_eq (m : Manager) (taskId : String)
    (timerId now : Nat) (s : TaskState) (ctrl : Nat)
    (h0 : lookupNat m.timers timerId = some taskId)
    (h1 : m.clearedTimers.contains timerId = false)
    (h2 : m.firedTimers.contains timerId = false)
    (h3 : lookupKey m.state taskId = some s)
    (h4 : s.status = .running)
    (h5 : lookupKey m.abortControllers taskId = some ctrl) :
    m.fireTimeout timerId now
      = ({ m with
           firedTimers := timerId :: m.firedTimers,
           aborted := ctrl :: m.aborted,
           abortControllers := removeKey m.abortControllers taskId,
           timeouts := removeKey m.timeouts taskId
         }).setState taskId (.timed_out taskId now) := by
  unfold Manager.fireTimeout
  simp only [h0]
  rw [h1, h2]
  simp only [Bool.or_self, Bool.false_eq_true, if_false]
  rw [h3]
  dsimp only
  rw [h4]
  simp only [bne_self_eq_false, Bool.false_eq_true, if_false]
  rw [h5]

/-- A timer that is dead to the JS runtime — never registered, already
cleared, or already fired — does nothing when its deadline arrives. -/
theorem fire_dead (m : Manager) (timerId now : Nat)
    (h : lookupNat m.timers timerId = none ∨
      m.clearedTimers.contains timerId = true ∨
      m.firedTimers.contains timerId = true) :
    m.fireTimeout timerId now = (m, none) := by
  unfold Manager.fireTimeout
  cases hr : lookupNat m.timers timerId with
  | none => rfl
  | some taskId =>
    dsimp only
    by_cases hc : (m.clearedTimers.contains timerId
        || m.firedTimers.contains timerId) = true
    · rw [if_pos hc]
    · exfalso
      rcases h with h | h | h
      · rw [hr] at h
        cases h
      · exact hc (by rw [h]; rfl)
      · exact hc (by rw [h]; exact Bool.or_true _)

/-- Clearing a task's recorded timer puts the handle on the cleared list. -/
theorem clearTimeoutOf_contains_self (m : Manager) (taskId : String)
    (t : Nat) (ht : lookupKey m.timeouts taskId = some t) :
    (m.clearTimeoutOf taskId).clearedTimers.contains t = true := by
  unfold Manager.clearTimeoutOf
  rw [ht]
  simp

/-- The `clearTimeout` helper never un-clears a handle. -/
theorem clearTimeoutOf_cleared_mono (m : Manager) (taskId : String)
    (t : Nat) (h : m.clearedTimers.contains t = true) :
    (m.clearTimeoutOf taskId).clearedTimers.contains t = true := by
  unfold Manager.clearTimeoutOf
  cases hl : lookupKey m.timeouts taskId
  · exact h
  · rename_i v
    simp
    exact Or.inr (by simpa using h)

@[simp] theorem scheduleTimer_clearedTimers (m : Manager) (taskId : String)
    (task : RegisteredTask) :
    (m.scheduleTimer taskId task).clearedTimers = m.clearedTimers := by
  unfold Manager.scheduleTimer
  split
  · split <;> rfl
  · rfl

/-- No engine operation un-clears a timer: `clearTimeout` is permanent. -/
theorem applyOp_cleared_mono (m : Manager) (op : Op) (t : Nat)
    (h : m.clearedTimers.contains t = true) :
    ((m.applyOp op).1).clearedTimers.contains t = true := by
  cases op with
  | reg taskId tmo =>
    simp only [Manager.applyOp]
    cases hreg : m.register taskId tmo with
    | ok mr =>
      dsimp only
      unfold Manager.register at hreg
      split at hreg
      · cases hreg
      · cases hreg
        exact h
    | error e => exact h
  | start taskId =>
    simp only [Manager.applyOp]
    unfold Manager.start
    cases ht : lookupKey m.tasks taskId <;>
      cases hs : lookupKey m.state taskId
    · exact h
    · exact h
    · exact h
    · dsimp only
      split
      · exact h
      · dsimp only
        rw [scheduleTimer_clearedTimers, setState_clearedTimers]
        unfold Manager.startCore
        exact clearTimeoutOf_cleared_mono _ _ _ h
  | cancel taskId now =>
    simp only [Manager.applyOp]
    unfold Manager.cancel
    cases hc : lookupKey m.abortControllers taskId
    · exact h
    · dsimp only
      rw [setState_clearedTimers]
      exact clearTimeoutOf_cleared_mono _ _ _ h
  | progress taskId hh msg c tt =>
    simp only [Manager.applyOp]
    unfold Manager.progressCall
    split
    · exact h
    · split
      · split
        · rw [setState_clearedTimers]
          exact h
        · exact h
      · exact h
  | settle taskId hh outcome now =>
    simp only [Manager.applyOp]
    unfold Manager.settle
    cases outcome with
    | success =>
      dsimp only
      split
      · split
        · apply clearTimeoutOf_cleared_mono
          dsimp only
          rw [setState_clearedTimers]
          exact h
        · rw [setState_clearedTimers]
          exact h
      · split
        · apply clearTimeoutOf_cleared_mono
          exact h
        · exact h
    | failure msg =>
      dsimp only
      split
      · split
        · apply clearTimeoutOf_cleared_mono
          dsimp only
          rw [setState_clearedTimers]
          exact h
        · rw [setState_clearedTimers]
          exact h
      · split
        · apply clearTimeoutOf_cleared_mono
          exact h
        · exact h
  | fire timerId now =>
    simp only [Manager.applyOp]
    unfold Manager.fireTimeout
    split
    · exact h
    · rename_i tid heq
      split
      · exact h
      · dsimp only
        cases hs : lookupKey m.state tid
        · exact h
        · dsimp only
          split
          · exact h
          · cases hc : lookupKey m.abortControllers tid <;>
            · dsimp only
              rw [setState_clearedTimers]
              exact h

/-- Along any operation trace, a cleared timer stays cleared. -/
theorem runOps_cleared_mono (ops : List Op) (m : Manager) (t : Nat)
    (h : m.clearedTimers.contains t = true) :
    ((m.runOps ops).1).clearedTimers.contains t = true := by
  induction ops generalizing m with
  | nil => exact h
  | cons op rest ih => exact ih ((m.applyOp op).1) (applyOp_cleared_mono m op t h)

/-- When the `finally` cleanup of a settlement that wrote a state runs, the
timer handle the task carried going in is cleared. -/
theorem settle_finally_clears_aux (m : Manager) (taskId : String)
    (h : RunHandle) (ns : TaskState) (t : Nat)
    (ht : lookupKey m.timeouts taskId = some t)
    (hf : ((m.setState taskId ns).1).isStaleRun taskId h = false) :
    ((({ (m.setState taskId ns).1 with
        abortControllers :=
          removeKey ((m.setState taskId ns).1).abortControllers taskId
      }).clearTimeoutOf taskId)).clearedTimers.contains t = true := by
  apply clearTimeoutOf_contains_self
  show lookupKey ((m.setState taskId ns).1).timeouts taskId = some t
  rcases (setState_lookup_other m taskId ns taskId).1 with he | he
  · rw [he.2.2.2, ht]
  · exfalso
    unfold Manager.isStaleRun at hf
    rw [he.2.2.1] at hf
    simp at hf

/-- A settlement whose run is still current after the write (the task was
not evicted by its own terminal transition) reaches the `finally` cleanup:
the timer handle recorded for the task going in is cleared, so it can never
fire. -/
theorem settle_clears_timer (m : Manager) (taskId : String) (h : RunHandle)
    (outcome : Settlement) (now t : Nat)
    (ht : lookupKey m.timeouts taskId = some t)
    (hns : ((m.settle taskId h outcome now).1).isStaleRun taskId h
      = false) :
    ((m.settle taskId h outcome now).1).clearedTimers.contains t
      = true := by
  unfold Manager.settle at hns ⊢
  cases outcome with
  | success =>
    dsimp only at hns ⊢
    by_cases hw : (!m.ctrlAborted h.ctrl && !m.isStaleRun taskId h) = true
    · rw [if_pos hw] at hns ⊢
      by_cases hf : (!(((m.setState taskId
          (.completed taskId now)).1).isStaleRun taskId h)) = true
      · rw [if_pos hf] at hns ⊢
        exact settle_finally_clears_aux m taskId h _ t ht
          (by simpa using hf)
      · rw [if_neg hf] at hns ⊢
        simp [hns] at hf
    · rw [if_neg hw] at hns ⊢
      by_cases hf : (!(m.isStaleRun taskId h)) = true
      · rw [if_pos hf] at hns ⊢
        apply clearTimeoutOf_contains_self
        show lookupKey m.timeouts taskId = some t
        exact ht
      · rw [if_neg hf] at hns ⊢
        simp [hns] at hf
  | failure msg =>
    dsimp only at hns ⊢
    by_cases hw : (!m.ctrlAborted h.ctrl && !m.isStaleRun taskId h) = true
    · rw [if_pos hw] at hns ⊢
      by_cases hf : (!(((m.setState taskId
          (.error taskId now msg)).1).isStaleRun taskId h)) = true
      · rw [if_pos hf] at hns ⊢
        exact settle_finally_clears_aux m taskId h _ t ht
          (by simpa using hf)
      · rw [if_neg hf] at hns ⊢
        simp [hns] at hf
    · rw [if_neg hw] at hns ⊢
      by_cases hf : (!(m.isStaleRun taskId h)) = true
      · rw [if_pos hf] at hns ⊢
        apply clearTimeoutOf_contains_self
        show lookupKey m.timeouts taskId = some t
        exact ht
      · rw [if_neg hf] at hns ⊢
        simp [hns] at hf

/-- Step 1 of the C4 trace: a manager with `maxHistory = 1`, task `"A"`
registered with a 60-second timeout and task `"C"` registered without
one. -/
def c4t0 : Manager :=
  registerD (registerD (mkManager false 1 0) "A" (some 60000)) "C" none

/-- Step 2: `start("A")` — handle `⟨generation 1, controller 0⟩`, timer
handle `0` scheduled and recorded for `"A"`. -/
def c4t1 := c4t0.start "A"

/-- Step 3: `start("C")` — handle `⟨generation 1, controller 1⟩`. -/
def c4t2 := c4t1.1.start "C"

/-- Step 4: `"C"` completes at time `10` (one terminal task: no
eviction). -/
def c4t3 : Manager :=
  (c4t2.1.settle "C" { generation := 1, ctrl := 1 } .success 10).1

/-- Step 5: `"A"` completes at time `10`, long before its 60-second
timeout.  The terminal write makes two terminal tasks; `"A"` sorts first
(equal `lastRun`, stable sort, earlier insertion), so `"A"` evicts
*itself*: every map entry for `"A"` — including the `timeouts` entry — is
deleted, but the underlying timer is not cleared.  The `finally` cleanup
then sees the run as stale (its generation entry is gone) and skips
`clearTimeout`: timer `0` is orphaned and still live. -/
def c4s := c4t3.settle "A" { generation := 1, ctrl := 0 } .success 10

/-- The manager after step 5. -/
def c4t4 : Manager := c4s.1

/-- Steps 6–7: re-register `"A"` (without a timeout) and start it — a fresh
run with controller `2`. -/
def c4t5 : Manager := ((registerD c4t4 "A" none).start "A").1

/-- Step 8: the orphaned timer `0` finally reaches its deadline and fires. -/
def c4fire := c4t5.fireTimeout 0 99999

/-- C4 counterexample: task `"A"`, registered with a timeout, completes at
time `10` — long before the timeout elapses and with its timer (handle `0`)
never having fired.  Its terminal write evicts it, deleting the `timeouts`
map entry without clearing the timer, and the stale-skipped `finally` never
clears it either; after `"A"` is re-registered and restarted, the orphaned
timer fires, aborts the fresh run's controller `2`, and writes `timed_out`:
the id that completed before its timeout nevertheless transitions to
`timed_out` once the timeout window passes, contradicting the claim as
stated. -/
theorem c4_counterexample :
    c4s.2 = some { taskId := "A", state := .completed "A" 10,
                   eventId := 4 } ∧
    c4t4.firedTimers = [] ∧
    lookupKey c4t4.state "A" = none ∧
    lookupKey c4t4.timeouts "A" = none ∧
    c4t4.clearedTimers = [] ∧
    lookupNat c4t4.timers 0 = some "A" ∧
    lookupKey c4t5.state "A"
      = some (.running "A" (some startingProgress)) ∧
    c4fire.2 = some { taskId := "A", state := .timed_out "A" 99999,
                      eventId := 6 } ∧
    lookupKey (c4fire.1).state "A" = some (.timed_out "A" 99999) ∧
    (c4fire.1).ctrlAborted 2 = true := by
  decide

/-- C4, amended: a timer that is unknown to the runtime, was cleared, or
has already fired does nothing when its deadline arrives; a live timer
whose task is gone or no longer `running` when it fires makes no
transition and emits no event; a live timer whose task is still `running`
aborts the current controller, drops it, forgets the `timeouts` entry and
writes `timed_out` with `lastRun = now`; a settlement whose run survives
its own terminal write reaches the `finally` cleanup and clears the
recorded timer; and a cleared timer never fires at any later point of any
operation trace.  Consequently a task that completes before its timeout
elapses never transitions to `timed_out` — provided it is not evicted by
its own terminal write and then re-registered and restarted, since
eviction deletes the `timeouts` entry without clearing the underlying
timer. -/
theorem c4_timeout_amended (m : Manager) (timerId now : Nat)
    (ops : List Op) :
    (lookupNat m.timers timerId = none →
      m.fireTimeout timerId now = (m, none)) ∧
    (m.clearedTimers.contains timerId = true →
      m.fireTimeout timerId now = (m, none)) ∧
    (m.firedTimers.contains timerId = true →
      m.fireTimeout timerId now = (m, none)) ∧
    (∀ taskId, lookupNat m.timers timerId = some taskId →
      lookupKey m.state taskId = none →
      (m.fireTimeout timerId now).2 = none ∧
      ((m.fireTimeout timerId now).1).state = m.state) ∧
    (∀ taskId s, lookupNat m.timers timerId = some taskId →
      lookupKey m.state taskId = some s → s.status ≠ .running →
      (m.fireTimeout timerId now).2 = none ∧
      ((m.fireTimeout timerId now).1).state = m.state) ∧
    (∀ taskId s ctrl, lookupNat m.timers timerId = some taskId →
      m.clearedTimers.contains timerId = false →
      m.firedTimers.contains timerId = false →
      lookupKey m.state taskId = some s → s.status = .running →
      lookupKey m.abortControllers taskId = some ctrl →
      (m.fireTimeout timerId now).2
          = some { taskId := taskId, state := .timed_out taskId now,
                   eventId := m.nextEventId } ∧
      ((m.fireTimeout timerId now).1).ctrlAborted ctrl = true ∧
      lookupKey ((m.fireTimeout timerId now).1).abortControllers taskId
          = none ∧
      lookupKey ((m.fireTimeout timerId now).1).timeouts taskId = none ∧
      (lookupKey ((m.fireTimeout timerId now).1).state taskId
          = some (.timed_out taskId now) ∨
       lookupKey ((m.fireTimeout timerId now).1).state taskId = none)) ∧
    (∀ taskId h outcome t, lookupKey m.timeouts taskId = some t →
      ((m.settle taskId h outcome now).1).isStaleRun taskId h = false →
      ((m.settle taskId h outcome now).1).clearedTimers.contains t
        = true) ∧
    (∀ t, m.clearedTimers.contains t = true →
      ∀ i now2, i ≤ ops.length →
        ((m.runOps (ops.take i)).1).fireTimeout t now2
          = ((m.runOps (ops.take i)).1, none)) := by
  refine ⟨?_, ?_, ?_, ?_, ?_, ?_, ?_, ?_⟩
  · intro h
    exact fire_dead m timerId now (Or.inl h)
  · intro h
    exact fire_dead m timerId now (Or.inr (Or.inl h))
  · intro h
    exact fire_dead m timerId now (Or.inr (Or.inr h))
  · intro taskId hreg hs
    unfold Manager.fireTimeout
    simp only [hreg]
    split
    · exact ⟨rfl, rfl⟩
    · rw [hs]
      exact ⟨rfl, rfl⟩
  · intro taskId s hreg hs hns
    unfold Manager.fireTimeout
    simp only [hreg]
    split
    · exact ⟨rfl, rfl⟩
    · rw [hs]
      dsimp only
      have hb : (s.status != TaskStatus.running) = true := by
        simp [bne_iff_ne, hns]
      rw [hb]
      exact ⟨rfl, rfl⟩
  · intro taskId s ctrl h0 h1 h2 h3 h4 h5
    rw [fireTimeout_pos_eq m taskId timerId now s ctrl h0 h1 h2 h3 h4 h5]
    have hg : ((s.status == TaskStatus.canceled
        || s.status == TaskStatus.timed_out)
        && (TaskState.timed_out taskId now).status != s.status
        && (TaskState.timed_out taskId now).status != TaskStatus.running)
          = false := by
      rw [h4]; rfl
    have hacc := setState_accept
      { m with
        firedTimers := timerId :: m.firedTimers,
        aborted := ctrl :: m.aborted,
        abortControllers := removeKey m.abortControllers taskId,
        timeouts := removeKey m.timeouts taskId }
      taskId (.timed_out taskId now) s h3 hg
    refine ⟨hacc.1, ?_, ?_, ?_, hacc.2.2⟩
    · rw [Manager.ctrlAborted, setState_aborted]
      simp
    · rcases (setState_lookup_other _ taskId (.timed_out taskId now)
          taskId).1 with he | he
      · rw [he.2.1]
        exact lookupKey_removeKey_self _ _
      · exact he.2.1
    · rcases (setState_lookup_other _ taskId (.timed_out taskId now)
          taskId).1 with he | he
      · rw [he.2.2.2]
        exact lookupKey_removeKey_self _ _
      · exact he.2.2.2
  · intro taskId h outcome t ht hns
    exact settle_clears_timer m taskId h outcome now t ht hns
  · intro t hct i now2 hi
    exact fire_dead _ t now2
      (Or.inr (Or.inl (runOps_cleared_mono (ops.take i) m t hct)))

/-- A concrete manager with `"job"` registered with a timeout and running
(controller `0`, timer handle `0`, generation `1`). -/
def c4m : Manager :=
  ((registerD (mkManager false 0 0) "job" (some 100)).start "job").1

/-- `c4m` after its handler completed at time `42`: the settlement's
`finally` cleanup released the controller and cleared the timer. -/
def c4mDone : Manager :=
  (c4m.settle "job" { generation := 1, ctrl := 0 } .success 42).1

/-- Witness for the amended C4 at concrete inputs: firing the live timer on
the running task writes `timed_out`; the completing settlement cleared the
timer, so firing it afterwards is the exact identity and the state stays
`completed`; and even a hypothetically still-live timer does nothing to a
task whose status is `completed`. -/
theorem c4_timeout_amended_witness :
    ((c4m.fireTimeout 0 77).2
        = some { taskId := "job", state := .timed_out "job" 77,
                 eventId := c4m.nextEventId } ∧
      ((c4m.fireTimeout 0 77).1).ctrlAborted 0 = true ∧
      lookupKey ((c4m.fireTimeout 0 77).1).abortControllers "job"
          = none ∧
      lookupKey ((c4m.fireTimeout 0 77).1).timeouts "job" = none ∧
      (lookupKey ((c4m.fireTimeout 0 77).1).state "job"
          = some (.timed_out "job" 77) ∨
       lookupKey ((c4m.fireTimeout 0 77).1).state "job" = none)) ∧
    c4mDone.clearedTimers.contains 0 = true ∧
    c4mDone.fireTimeout 0 200 = (c4mDone, none) ∧
    c4mDone.getState "job" = some (.completed "job" 42) ∧
    (({ c4mDone with clearedTimers := [] }).fireTimeout 0 200).2 = none ∧
    (({ c4mDone with clearedTimers := [] }).fireTimeout 0 200).1.state
      = c4mDone.state := by
  refine ⟨?_, ?_, ?_, by decide, ?_, ?_⟩
  · exact (c4_timeout_amended c4m 0 77 []).2.2.2.2.2.1 "job"
      (.running "job" (some startingProgress)) 0
      (by decide) (by decide) (by decide) (by decide) rfl (by decide)
  · exact (c4_timeout_amended c4m 0 42 []).2.2.2.2.2.2.1 "job"
      { generation := 1, ctrl := 0 } .success 0 (by decide) (by decide)
  · exact (c4_timeout_amended c4mDone 0 200 []).2.2.2.2.2.2.2 0
      (by decide) 0 200 (by decide)
  · exact ((c4_timeout_amended { c4mDone with clearedTimers := [] } 0 200
      []).2.2.2.2.1 "job" (.completed "job" 42) (by decide) (by decide)
      (by decide)).1
  · exact ((c4_timeout_amended { c4mDone with clearedTimers := [] } 0 200
      []).2.2.2.2.1 "job" (.completed "job" 42) (by decide) (by decide)
      (by decide)).2


@[simp] theorem clearTimeoutOf_nextEventId (m : Manager) (taskId : String) :
    (m.clearTimeoutOf taskId).nextEventId = m.nextEventId :=
  (clearTimeoutOf_spec m taskId).2.2.2.2.2.1

/-- An accepted `setState` stamps the emitted event with the pre-call
`nextEventId` and bumps the counter; a rejected one changes nothing. -/
theorem event_bounds_of_setState (m0 m : Manager) (t : String)
    (ns : TaskState) (hn : m.nextEventId = m0.nextEventId) :
    ((m.setState t ns).2 = none ∧
      ((m.setState t ns).1).nextEventId = m0.nextEventId) ∨
    (∃ e, (m.setState t ns).2 = some e ∧ e.eventId = m0.nextEventId ∧
      ((m.setState t ns).1).nextEventId = m0.nextEventId + 1) := by
  rcases setState_cases m t ns with h | ⟨h1, h2⟩
  · left
    constructor
    · rw [h]
    · rw [h]; exact hn
  · right
    refine ⟨_, h1, ?_, ?_⟩
    · rw [hn]
    · rw [h2, hn]

@[simp] theorem startCore_nextEventId (m : Manager) (taskId : String) :
    (m.startCore taskId).nextEventId = m.nextEventId := by
  unfold Manager.startCore
  rw [clearTimeoutOf_nextEventId]

@[simp] theorem scheduleTimer_nextEventId (m : Manager) (taskId : String)
    (task : RegisteredTask) :
    (m.scheduleTimer taskId task).nextEventId = m.nextEventId := by
  unfold Manager.scheduleTimer
  split
  · split <;> rfl
  · rfl

/-- Every engine operation emits at most one event; when it does, the event
carries the pre-operation `nextEventId` and the counter moves up by exactly
one, and when it does not, the counter is unchanged. -/
theorem applyOp_event_bounds (m : Manager) (op : Op) :
    ((m.applyOp op).2 = none ∧
      ((m.applyOp op).1).nextEventId = m.nextEventId) ∨
    (∃ e, (m.applyOp op).2 = some e ∧ e.eventId = m.nextEventId ∧
      ((m.applyOp op).1).nextEventId = m.nextEventId + 1) := by
  cases op with
  | reg taskId t =>
    simp only [Manager.applyOp]
    cases hreg : m.register taskId t with
    | ok m' =>
      dsimp only
      left
      refine ⟨rfl, ?_⟩
      unfold Manager.register at hreg
      split at hreg
      · cases hreg
      · cases hreg
        rfl
    | error e =>
      left; exact ⟨rfl, rfl⟩
  | start taskId =>
    simp only [Manager.applyOp]
    unfold Manager.start
    cases ht : lookupKey m.tasks taskId <;>
      cases hs : lookupKey m.state taskId
    · left; exact ⟨rfl, rfl⟩
    · left; exact ⟨rfl, rfl⟩
    · left; exact ⟨rfl, rfl⟩
    · dsimp only
      split
      · left; exact ⟨rfl, rfl⟩
      · have hb := event_bounds_of_setState m (m.startCore taskId) taskId
          (.running taskId (some startingProgress)) (by simp)
        rcases hb with ⟨h1, h2⟩ | ⟨e, h1, h2, h3⟩
        · left
          exact ⟨h1, by rw [scheduleTimer_nextEventId, h2]⟩
        · right
          exact ⟨e, h1, h2, by rw [scheduleTimer_nextEventId, h3]⟩
  | cancel taskId now =>
    simp only [Manager.applyOp]
    unfold Manager.cancel
    cases hc : lookupKey m.abortControllers taskId
    · left; exact ⟨rfl, rfl⟩
    · dsimp only
      exact event_bounds_of_setState m _ taskId (.canceled taskId now)
        (by rw [clearTimeoutOf_nextEventId])
  | progress taskId h msg c t =>
    simp only [Manager.applyOp]
    unfold Manager.progressCall
    split
    · left; exact ⟨rfl, rfl⟩
    · split
      · split
        · exact event_bounds_of_setState m m taskId (.running taskId (some { message := msg, current := c, total := t })) rfl
        · left; exact ⟨rfl, rfl⟩
      · left; exact ⟨rfl, rfl⟩
  | settle taskId h outcome now =>
    simp only [Manager.applyOp]
    unfold Manager.settle
    cases outcome with
    | success =>
      dsimp only
      split
      · rcases event_bounds_of_setState m m taskId
            (.completed taskId now) rfl with ⟨h1, h2⟩ | ⟨e, h1, h2, h3⟩
        · left
          refine ⟨?_, ?_⟩
          · split
            · exact h1
            · exact h1
          · split
            · rw [clearTimeoutOf_nextEventId]; exact h2
            · exact h2
        · right
          refine ⟨e, ?_, h2, ?_⟩
          · split
            · exact h1
            · exact h1
          · split
            · rw [clearTimeoutOf_nextEventId]; exact h3
            · exact h3
      · left
        refine ⟨?_, ?_⟩
        · split
          · rfl
          · rfl
        · split
          · rw [clearTimeoutOf_nextEventId]
          · rfl
    | failure msg =>
      dsimp only
      split
      · rcases event_bounds_of_setState m m taskId
            (.error taskId now msg) rfl with ⟨h1, h2⟩ | ⟨e, h1, h2, h3⟩
        · left
          refine ⟨?_, ?_⟩
          · split
            · exact h1
            · exact h1
          · split
            · rw [clearTimeoutOf_nextEventId]; exact h2
            · exact h2
        · right
          refine ⟨e, ?_, h2, ?_⟩
          · split
            · exact h1
            · exact h1
          · split
            · rw [clearTimeoutOf_nextEventId]; exact h3
            · exact h3
      · left
        refine ⟨?_, ?_⟩
        · split
          · rfl
          · rfl
        · split
          · rw [clearTimeoutOf_nextEventId]
          · rfl
  | fire timerId now =>
    simp only [Manager.applyOp]
    unfold Manager.fireTimeout
    split
    · left; exact ⟨rfl, rfl⟩
    · rename_i tid heq
      split
      · left; exact ⟨rfl, rfl⟩
      · dsimp only
        cases hs : lookupKey m.state tid
        · left; exact ⟨rfl, rfl⟩
        · dsimp only
          split
          · left; exact ⟨rfl, rfl⟩
          · cases hc : lookupKey m.abortControllers tid <;>
            · dsimp only
              exact event_bounds_of_setState m _ tid
                (.timed_out tid now) rfl

/-- Along any operation trace, the event counter never decreases, every
delivered event's id lies between the counter values, and the delivered
event ids are strictly increasing. -/
theorem runOps_event_bounds (ops : List Op) (m : Manager) :
    m.nextEventId ≤ ((m.runOps ops).1).nextEventId ∧
    (∀ e ∈ (m.runOps ops).2,
      m.nextEventId ≤ e.eventId ∧
      e.eventId < ((m.runOps ops).1).nextEventId) ∧
    List.Chain' (fun a b => a.eventId < b.eventId) (m.runOps ops).2 := by
  induction ops generalizing m with
  | nil =>
    exact ⟨Nat.le_refl _, fun e he => absurd he (List.not_mem_nil e),
      List.chain'_nil⟩
  | cons op rest ih =>
    have hstep := applyOp_event_bounds m op
    have hrest := ih ((m.applyOp op).1)
    show m.nextEventId
        ≤ (((m.applyOp op).1).runOps rest).1.nextEventId ∧ _ ∧ _
    rcases hstep with ⟨h1, h2⟩ | ⟨e, h1, h2, h3⟩
    · rw [show (m.runOps (op :: rest)).2
          = ((m.applyOp op).2).toList ++ (((m.applyOp op).1).runOps rest).2
        from rfl, h1]
      rw [h2] at hrest
      exact ⟨hrest.1, fun e' he' => hrest.2.1 e' (by simpa using he'),
        by simpa using hrest.2.2⟩
    · rw [show (m.runOps (op :: rest)).2
          = ((m.applyOp op).2).toList ++ (((m.applyOp op).1).runOps rest).2
        from rfl, h1]
      rw [h3] at hrest
      refine ⟨Nat.le_trans (Nat.le_succ _) hrest.1, ?_, ?_⟩
      · intro e' he'
        simp only [Option.toList_some, List.cons_append, List.nil_append,
          List.mem_cons] at he'
        rcases he' with he' | he'
        · subst he'
          exact ⟨Nat.le_of_eq h2.symm,
            Nat.lt_of_lt_of_le (h2 ▸ Nat.lt_succ_self _) hrest.1⟩
        · have := hrest.2.1 e' he'
          exact ⟨Nat.le_trans (Nat.le_succ _) this.1, this.2⟩
      · simp only [Option.toList_some, List.cons_append, List.nil_append]
        rw [List.chain'_cons']
        refine ⟨?_, hrest.2.2⟩
        intro y hy
        have hmem : y ∈ (((m.applyOp op).1).runOps rest).2 :=
          List.mem_of_mem_head? hy
        have := hrest.2.1 y hmem
        rw [h2]
        exact Nat.lt_of_lt_of_le (Nat.lt_succ_self _) this.1

/-- C8: event ids are assigned at emission time from a single process-wide
counter: along every operation trace the delivered events carry strictly
increasing `eventId`s (hence also within any single task id's subsequence),
and the emitted event of an accepted transition — its id included — is the
same whatever the replay-buffer capacity is, buffering disabled or not. -/
theorem c8_eventId_monotone (m : Manager) (ops : List Op) (tid : String)
    (n : Nat) (taskId : String) (ns : TaskState) :
    List.Chain' (· < ·)
      (((m.runOps ops).2).map TaskUpdateEvent.eventId) ∧
    List.Chain' (· < ·)
      ((((m.runOps ops).2).filter (fun e => e.taskId == tid)).map
        TaskUpdateEvent.eventId) ∧
    (({ m with eventBufferSize := n }).setState taskId ns).2
      = (m.setState taskId ns).2 := by
  have hchain := (runOps_event_bounds ops m).2.2
  have htrans : Transitive fun a b : TaskUpdateEvent =>
      a.eventId < b.eventId := fun _ _ _ hab hbc => Nat.lt_trans hab hbc
  refine ⟨?_, ?_, ?_⟩
  · rw [List.chain'_map]
    exact hchain
  · rw [List.chain'_map]
    have : IsTrans TaskUpdateEvent
        (fun a b => a.eventId < b.eventId) := ⟨htrans⟩
    rw [List.chain'_iff_pairwise] at hchain ⊢
    exact hchain.filter _
  · unfold Manager.setState
    dsimp only
    cases h : lookupKey m.state taskId
    · rfl
    · dsimp only
      split
      · rfl
      · rfl


theorem filterMap_guard {α β : Type} (f : α → β) (p : β → Prop)
    [DecidablePred p] (l : List α) :
    l.filterMap (fun i => if p (f i) then some (f i) else none)
      = (l.map f).filter (fun b => decide (p b)) := by
  induction l with
  | nil => rfl
  | cons a l ih => by_cases h : p (f a) <;> simp [h, ih]

/-- The ring order is a rotation of the underlying array. -/
theorem ringList_eq_rotate (m : Manager) :
    m.ringList = m.eventBuffer.rotate m.oldestIdx := by
  apply List.ext_getElem
  · simp [Manager.ringList, List.length_rotate]
  · intro i h1 h2
    have hlen : i < m.eventBuffer.length := by
      simpa [Manager.ringList] using h1
    have hpos : 0 < m.eventBuffer.length :=
      Nat.lt_of_le_of_lt (Nat.zero_le i) hlen
    simp only [Manager.ringList, List.getElem_map, List.getElem_range]
    rw [List.getElem_rotate, List.getD_eq_getElem]
    · congr 1
      rw [Nat.add_comm]
    · exact Nat.mod_lt _ hpos

/-- The ring order is a permutation of the underlying array. -/
theorem ringList_perm (m : Manager) : m.ringList.Perm m.eventBuffer := by
  rw [ringList_eq_rotate]
  exact List.rotate_perm _ _

/-- The head of the ring order is the entry `getEventsSince` reads as the
oldest one. -/
theorem ringList_head (m : Manager)
    (hwf : m.oldestIdx < m.eventBuffer.length) :
    m.ringList.head? = some (m.eventBuffer.getD m.oldestIdx dfltEvent) := by
  rw [ringList_eq_rotate, List.head?_rotate hwf, List.getElem?_eq_getElem hwf,
    List.getD_eq_getElem _ _ hwf]

/-- In the serving case (buffering on, buffer non-empty, no gap),
`getEventsSince` returns the ring order filtered to the events newer than
`lastId`. -/
theorem getEventsSince_serving (m : Manager) (lastId : Int)
    (hsz : ¬m.eventBufferSize = 0) (hne : ¬m.eventBuffer.length = 0)
    (hgap : ¬(lastId
      < ((m.eventBuffer.getD m.oldestIdx dfltEvent).eventId : Int) - 1)) :
    m.getEventsSince lastId
      = some (m.ringList.filter
          (fun e => lastId < (e.eventId : Int))) := by
  unfold Manager.getEventsSince
  rw [if_neg hsz, if_neg hne, if_neg hgap, Manager.ringList]
  exact congrArg some (filterMap_guard
    (fun i => m.eventBuffer.getD
      ((m.oldestIdx + i) % m.eventBuffer.length) dfltEvent)
    (fun e => lastId < (e.eventId : Int))
    (List.range m.eventBuffer.length))


/-- C7: `eventsSince(lastId)` returns `undefined` (cannot serve — the
caller must fall back to a full snapshot) when buffering is disabled
(capacity `0`), or when `lastId` is older than the oldest buffered event's
id minus one; it returns an empty sequence when `lastId` is already current
(no buffered event is newer); and otherwise it returns exactly the buffered
events with `eventId > lastId`, in ascending `eventId` order. -/
theorem c7_eventsSince (m : Manager) (lastId : Int) :
    (m.eventBufferSize = 0 → m.getEventsSince lastId = none) ∧
    (m.eventBufferSize ≠ 0 → m.BufferWF → m.eventBuffer ≠ [] →
      ∀ oldest, m.ringList.head? = some oldest →
      lastId < (oldest.eventId : Int) - 1 →
      m.getEventsSince lastId = none) ∧
    (m.eventBufferSize ≠ 0 → m.BufferWF →
      (∀ e ∈ m.eventBuffer, (e.eventId : Int) ≤ lastId) →
      m.getEventsSince lastId = some []) ∧
    (m.eventBufferSize ≠ 0 → m.BufferWF → m.eventBuffer ≠ [] →
      ∀ oldest, m.ringList.head? = some oldest →
      ¬(lastId < (oldest.eventId : Int) - 1) →
      ∃ evs, m.getEventsSince lastId = some evs ∧
        evs.Perm (m.eventBuffer.filter
          (fun e => lastId < (e.eventId : Int))) ∧
        List.Chain' (· < ·) (evs.map TaskUpdateEvent.eventId) ∧
        (∀ e ∈ evs, lastId < (e.eventId : Int))) := by
  refine ⟨?_, ?_, ?_, ?_⟩
  · intro h
    unfold Manager.getEventsSince
    rw [if_pos h]
  · intro hsz hwf hne oldest hold hgap
    have hidx := hwf.1 hne
    rw [ringList_head m hidx] at hold
    cases hold
    unfold Manager.getEventsSince
    rw [if_neg hsz, if_neg (by simpa using hne), if_pos hgap]
  · intro hsz hwf hall
    by_cases hne : m.eventBuffer.length = 0
    · unfold Manager.getEventsSince
      rw [if_neg hsz, if_pos hne]
    · have hne' : m.eventBuffer ≠ [] := by
        simpa using hne
      have hidx := hwf.1 hne'
      have holdmem : m.eventBuffer.getD m.oldestIdx dfltEvent
          ∈ m.eventBuffer := by
        rw [List.getD_eq_getElem _ _ hidx]
        exact List.getElem_mem _
      have hgap : ¬(lastId
          < ((m.eventBuffer.getD m.oldestIdx dfltEvent).eventId : Int)
            - 1) := by
        have := hall _ holdmem
        omega
      rw [getEventsSince_serving m lastId hsz hne hgap]
      congr 1
      rw [List.filter_eq_nil_iff]
      intro e he
      have hmem : e ∈ m.eventBuffer := (ringList_perm m).mem_iff.mp he
      have := hall e hmem
      simp
      omega
  · intro hsz hwf hne oldest hold hgap
    have hidx := hwf.1 hne
    rw [ringList_head m hidx] at hold
    cases hold
    refine ⟨_, getEventsSince_serving m lastId hsz (by simpa using hne)
      hgap, ?_, ?_, ?_⟩
    · exact (ringList_perm m).filter _
    · have htrans : IsTrans TaskUpdateEvent
          (fun a b => a.eventId < b.eventId) :=
        ⟨fun _ _ _ hab hbc => Nat.lt_trans hab hbc⟩
      rw [List.chain'_map]
      rw [List.chain'_iff_pairwise]
      exact (List.chain'_iff_pairwise.mp hwf.2).filter _
    · intro e he
      simpa using (List.mem_filter.mp he).2

instance (m : Manager) : Decidable m.BufferWF :=
  inferInstanceAs (Decidable (_ ∧ _))

/-- A concrete manager whose full two-slot ring buffer holds events `2`
(oldest, at `ringHead = 1`) and `3`. -/
def c7m : Manager :=
  { mkManager false 0 2 with
    nextEventId := 4,
    eventBuffer :=
      [{ taskId := "B", state := .running "B" none, eventId := 3 },
       { taskId := "B", state := .running "B" none, eventId := 2 }],
    ringHead := 1 }

/-- The concrete buffer `c7m` is well-formed. -/
theorem c7m_wf : c7m.BufferWF := by
  constructor
  · intro _
    decide
  · have hr : c7m.ringList
        = [{ taskId := "B", state := .running "B" none, eventId := 2 },
           { taskId := "B", state := .running "B" none, eventId := 3 }] := by
      decide
    rw [hr]
    exact List.chain'_cons.mpr ⟨by decide, List.chain'_singleton _⟩

/-- Witness for C7 at concrete inputs: buffering disabled always falls
back; a gap (`lastId = 0` against oldest id `2`) cannot be served; a
current `lastId = 3` yields the empty replay; `lastId = 2` yields exactly
the missed event `3`. -/
theorem c7_eventsSince_witness :
    ((mkManager false 0 0).getEventsSince 5 = none) ∧
    (c7m.getEventsSince 0 = none) ∧
    (c7m.getEventsSince 3 = some []) ∧
    (∃ evs, c7m.getEventsSince 2 = some evs ∧
      evs.Perm (c7m.eventBuffer.filter
        (fun e => (2 : Int) < (e.eventId : Int))) ∧
      List.Chain' (· < ·) (evs.map TaskUpdateEvent.eventId) ∧
      (∀ e ∈ evs, (2 : Int) < (e.eventId : Int))) :=
  ⟨(c7_eventsSince (mkManager false 0 0) 5).1 rfl,
   (c7_eventsSince c7m 0).2.1 (by decide) c7m_wf (by decide)
     { taskId := "B", state := .running "B" none, eventId := 2 }
     (by decide) (by decide),
   (c7_eventsSince c7m 3).2.2.1 (by decide) c7m_wf (by decide),
   (c7_eventsSince c7m 2).2.2.2 (by decide) c7m_wf (by decide)
     { taskId := "B", state := .running "B" none, eventId := 2 }
     (by decide) (by decide)⟩


/-! ## Lemmas for the eviction bound (C6) -/

/-- A `lastRun` field is carried only by terminal variants. -/
theorem TaskState.terminal_of_lastRun {s : TaskState} {t : Nat}
    (h : s.lastRun? = some t) : s.status.isTerminal = true := by
  cases s <;> simp_all [TaskState.lastRun?, TaskState.status,
    TaskStatus.isTerminal, TERMINAL_STATUSES]

/-- The number of state-map entries whose status is terminal. -/
def terminalCount (st : List (String × TaskState)) : Nat :=
  (st.filter (fun p => p.2.status.isTerminal)).length

theorem terminalCount_eq (st : List (String × TaskState)) :
    terminalCount st = (terminalEntries st).length := by
  induction st with
  | nil => rfl
  | cons p st ih =>
    by_cases h : p.2.status.isTerminal
    · have hl := TaskState.isTerminal_lastRun h
      cases hlr : p.2.lastRun? with
      | none => rw [hlr] at hl; cases hl
      | some t =>
        simp [terminalCount, terminalEntries, h, hlr, List.filter_cons] at *
        exact ih
    · simp [terminalCount, terminalEntries, h, List.filter_cons] at *
      exact ih

/-- `true` iff `k` is none of the given keys. -/
def keyNotIn (ids : List String) (k : String) : Bool :=
  ids.all (fun i => !(k == i))

theorem keyNotIn_cons (i : String) (ids : List String) (k : String) :
    keyNotIn (i :: ids) k = (!(k == i) && keyNotIn ids k) := by
  simp [keyNotIn, List.all_cons]

theorem keyNotIn_of_mem {ids : List String} {k : String} (h : k ∈ ids) :
    keyNotIn ids k = false := by
  induction ids with
  | nil => cases h
  | cons i ids ih =>
    rw [keyNotIn_cons]
    rcases List.mem_cons.mp h with h | h
    · subst h; simp
    · rw [ih h]; simp

theorem keyNotIn_of_not_mem {ids : List String} {k : String} (h : k ∉ ids) :
    keyNotIn ids k = true := by
  induction ids with
  | nil => rfl
  | cons i ids ih =>
    rw [keyNotIn_cons]
    have h1 : k ≠ i := fun he => h (he ▸ List.mem_cons_self i ids)
    have h2 : k ∉ ids := fun hm => h (List.mem_cons_of_mem i hm)
    rw [ih h2]
    simp [h1]

/-- Iterated `removeKey` is a single filter on the keys. -/
theorem foldRemove_filter {α : Type} (ids : List String)
    (l : List (String × α)) :
    ids.foldl (fun st k => removeKey st k) l
      = l.filter (fun p => keyNotIn ids p.1) := by
  induction ids generalizing l with
  | nil =>
    simp [keyNotIn]
  | cons i ids ih =>
    rw [List.foldl_cons, ih]
    unfold removeKey
    rw [List.filter_filter]
    apply List.filter_congr
    intro p _
    rw [keyNotIn_cons, Bool.and_comm]

/-- `terminalEntries` commutes with key-filtering. -/
theorem terminalEntries_filter (f : String → Bool)
    (st : List (String × TaskState)) :
    terminalEntries (st.filter (fun p => f p.1))
      = (terminalEntries st).filter (fun q => f q.1) := by
  induction st with
  | nil => rfl
  | cons p st ih =>
    by_cases hf : f p.1
    · by_cases ht : p.2.status.isTerminal
      · cases hlr : p.2.lastRun? with
        | none =>
          have := TaskState.isTerminal_lastRun ht
          rw [hlr] at this; cases this
        | some t =>
          simp [terminalEntries, List.filter_cons, hf, ht, hlr] at *
          exact ih
      · simp [terminalEntries, List.filter_cons, hf, ht] at *
        exact ih
    · by_cases ht : p.2.status.isTerminal
      · cases hlr : p.2.lastRun? with
        | none =>
          have := TaskState.isTerminal_lastRun ht
          rw [hlr] at this; cases this
        | some t =>
          simp [terminalEntries, List.filter_cons, hf, ht, hlr] at *
          exact ih
      · simp [terminalEntries, List.filter_cons, hf, ht] at *
        exact ih

theorem countP_add_countP_not {α : Type} (p : α → Bool) (l : List α) :
    l.countP p + l.countP (fun a => !p a) = l.length := by
  induction l with
  | nil => rfl
  | cons a l ih =>
    by_cases h : p a <;>
      simp [List.countP_cons, h] <;> omega

theorem lookup_mem {α : Type} {l : List (String × α)} {k : String} {v : α}
    (h : lookupKey l k = some v) : (k, v) ∈ l := by
  induction l with
  | nil => cases h
  | cons p l ih =>
    rw [lookupKey_cons] at h
    by_cases hp : p.1 == k
    · rw [if_pos hp] at h
      cases h
      have : p.1 = k := by simpa using hp
      rw [← this]
      exact List.mem_cons_self p l
    · rw [if_neg hp] at h
      exact List.mem_cons_of_mem _ (ih h)

theorem lookup_of_mem_nodup {α : Type} {l : List (String × α)} {k : String}
    {v : α} (hnd : (l.map Prod.fst).Nodup) (h : (k, v) ∈ l) :
    lookupKey l k = some v := by
  induction l with
  | nil => cases h
  | cons p l ih =>
    rcases List.mem_cons.mp h with h | h
    · subst h
      rw [lookupKey_cons, if_pos (by simp)]
    · rw [lookupKey_cons]
      have hk : p.1 ≠ k := by
        intro he
        have : k ∈ l.map Prod.fst := List.mem_map.mpr ⟨(k, v), h, rfl⟩
        rw [List.map_cons] at hnd
        exact (List.nodup_cons.mp hnd).1 (he ▸ this)
      rw [if_neg (by simpa using hk)]
      exact ih (List.nodup_cons.mp (by rwa [List.map_cons] at hnd)).2 h

theorem mem_terminalEntries {st : List (String × TaskState)} {k : String}
    {t : Nat} (h : (k, t) ∈ terminalEntries st) :
    ∃ s, (k, s) ∈ st ∧ s.status.isTerminal = true ∧ s.lastRun? = some t := by
  induction st with
  | nil => cases h
  | cons p st ih =>
    by_cases ht : p.2.status.isTerminal
    · cases hlr : p.2.lastRun? with
      | none =>
        have := TaskState.isTerminal_lastRun ht
        rw [hlr] at this; cases this
      | some t' =>
        rw [show terminalEntries (p :: st)
            = (p.1, t') :: terminalEntries st by
          simp [terminalEntries, ht, hlr]] at h
        rcases List.mem_cons.mp h with h | h
        · cases h
          exact ⟨p.2, List.mem_cons_self _ _, ht, hlr⟩
        · rcases ih h with ⟨s, hs1, hs2, hs3⟩
          exact ⟨s, List.mem_cons_of_mem _ hs1, hs2, hs3⟩
    · rw [show terminalEntries (p :: st) = terminalEntries st by
        simp [terminalEntries, ht]] at h
      rcases ih h with ⟨s, hs1, hs2, hs3⟩
      exact ⟨s, List.mem_cons_of_mem _ hs1, hs2, hs3⟩

theorem terminalEntries_mem {st : List (String × TaskState)} {k : String}
    {s : TaskState} {t : Nat} (hmem : (k, s) ∈ st)
    (hlr : s.lastRun? = some t) : (k, t) ∈ terminalEntries st := by
  induction st with
  | nil => cases hmem
  | cons p st ih =>
    rcases List.mem_cons.mp hmem with h | h
    · cases h
      rw [show terminalEntries ((k, s) :: st)
          = (k, t) :: terminalEntries st by
        simp [terminalEntries, TaskState.terminal_of_lastRun hlr, hlr]]
      exact List.mem_cons_self _ _
    · by_cases ht : p.2.status.isTerminal
      · cases hlr' : p.2.lastRun? with
        | none =>
          have := TaskState.isTerminal_lastRun ht
          rw [hlr'] at this; cases this
        | some t' =>
          rw [show terminalEntries (p :: st)
              = (p.1, t') :: terminalEntries st by
            simp [terminalEntries, ht, hlr']]
          exact List.mem_cons_of_mem _ (ih h)
      · rw [show terminalEntries (p :: st) = terminalEntries st by
          simp [terminalEntries, ht]]
        exact ih h


theorem evict_active_eq (M : Manager) (h0 : ¬M.maxHistory = 0)
    (hn : ¬(terminalEntries M.state).length ≤ M.maxHistory) :
    M.evictOldTasks = { M with
      tasks := M.tasks.filter
        (fun p => keyNotIn (M.evictList.map Prod.fst) p.1),
      state := M.state.filter
        (fun p => keyNotIn (M.evictList.map Prod.fst) p.1),
      abortControllers := M.abortControllers.filter
        (fun p => keyNotIn (M.evictList.map Prod.fst) p.1),
      runGeneration := M.runGeneration.filter
        (fun p => keyNotIn (M.evictList.map Prod.fst) p.1),
      timeouts := M.timeouts.filter
        (fun p => keyNotIn (M.evictList.map Prod.fst) p.1) } := by
  unfold Manager.evictOldTasks
  rw [if_neg h0, if_neg hn, foldRemove_eq]
  simp only [foldRemove_filter]

theorem evictList_take (M : Manager) :
    M.evictList = ((terminalEntries M.state).insertionSort
        lastRunLE).take
      ((terminalEntries M.state).length - M.maxHistory) := rfl

theorem evictList_subset (M : Manager) :
    ∀ p ∈ M.evictList, p ∈ terminalEntries M.state := by
  intro p hp
  rw [evictList_take] at hp
  exact (List.perm_insertionSort lastRunLE _).mem_iff.mp
    (List.mem_of_mem_take hp)

theorem evictList_subperm (M : Manager) :
    List.Subperm M.evictList (terminalEntries M.state) := by
  rw [evictList_take]
  exact ((List.perm_insertionSort lastRunLE
    (terminalEntries M.state)).subperm_left).mp
    (List.take_sublist _ _).subperm

theorem evictList_length (M : Manager) :
    M.evictList.length
      = (terminalEntries M.state).length - M.maxHistory := by
  rw [evictList_take, List.length_take, List.length_insertionSort,
    Nat.min_eq_left (Nat.sub_le _ _)]

/-- Behaviour of `evictOldTasks` under a positive history bound and
well-formed (key-nodup) state map: the terminal count is brought within the
bound; pending/running tasks survive untouched; an evicted task vanishes
from all five maps; and every evicted task is at least as old (by
`lastRun`) as every surviving terminal task. -/
theorem evict_main (M : Manager) (hK : 0 < M.maxHistory)
    (hnd : (M.state.map Prod.fst).Nodup) :
    terminalCount ((M.evictOldTasks).state) ≤ M.maxHistory ∧
    (∀ k s, lookupKey M.state k = some s →
      (s.status = .pending ∨ s.status = .running) →
      lookupKey (M.evictOldTasks).state k = some s) ∧
    (∀ k, (lookupKey M.state k).isSome = true →
      lookupKey (M.evictOldTasks).state k = none →
      lookupKey (M.evictOldTasks).tasks k = none ∧
      lookupKey (M.evictOldTasks).abortControllers k = none ∧
      lookupKey (M.evictOldTasks).runGeneration k = none ∧
      lookupKey (M.evictOldTasks).timeouts k = none) ∧
    (∀ k s lr, lookupKey M.state k = some s → s.lastRun? = some lr →
      lookupKey (M.evictOldTasks).state k = none →
      ∀ k' s' lr', lookupKey (M.evictOldTasks).state k' = some s' →
        s'.lastRun? = some lr' → lr ≤ lr') := by
  have h0 : ¬M.maxHistory = 0 := Nat.pos_iff_ne_zero.mp hK
  by_cases hn : (terminalEntries M.state).length ≤ M.maxHistory
  · have hev : M.evictOldTasks = M := by
      unfold Manager.evictOldTasks
      rw [if_neg h0, if_pos hn]
    rw [hev]
    refine ⟨?_, fun k s hk _ => hk, ?_, ?_⟩
    · rw [terminalCount_eq]
      exact hn
    · intro k hk1 hk2
      rw [hk2] at hk1
      cases hk1
    · intro k s lr hk hlr hpost
      rw [hpost] at hk
      cases hk
  · have hev := evict_active_eq M h0 hn
    set ids := M.evictList.map Prod.fst with hids
    have hstate : (M.evictOldTasks).state
        = M.state.filter (fun p => keyNotIn ids p.1) := by rw [hev]
    have htasks : (M.evictOldTasks).tasks
        = M.tasks.filter (fun p => keyNotIn ids p.1) := by rw [hev]
    have habort : (M.evictOldTasks).abortControllers
        = M.abortControllers.filter (fun p => keyNotIn ids p.1) := by
      rw [hev]
    have hgen : (M.evictOldTasks).runGeneration
        = M.runGeneration.filter (fun p => keyNotIn ids p.1) := by rw [hev]
    have htime : (M.evictOldTasks).timeouts
        = M.timeouts.filter (fun p => keyNotIn ids p.1) := by rw [hev]
    have hmem_ids : ∀ k, k ∈ ids →
        ∃ s, lookupKey M.state k = some s ∧ s.status.isTerminal = true ∧
          ∃ lr, s.lastRun? = some lr ∧ (k, lr) ∈ M.evictList := by
      intro k hk
      rcases List.mem_map.mp hk with ⟨p, hp, hfst⟩
      rcases mem_terminalEntries (evictList_subset M p hp) with
        ⟨s, hs1, hs2, hs3⟩
      subst hfst
      exact ⟨s, lookup_of_mem_nodup hnd hs1, hs2, p.2, hs3, by
        rwa [show (p.1, p.2) = p from rfl]⟩
    refine ⟨?_, ?_, ?_, ?_⟩
    · rw [hstate, terminalCount_eq, terminalEntries_filter,
        ← List.countP_eq_length_filter]
      have hall : ∀ p ∈ M.evictList,
          (fun q : String × Nat => !keyNotIn ids q.1) p = true := by
        intro p hp
        have hmem : p.1 ∈ ids := by
          rw [hids]
          exact List.mem_map.mpr ⟨p, hp, rfl⟩
        simp [keyNotIn_of_mem hmem]
      have h1 : M.evictList.countP (fun q => !keyNotIn ids q.1)
          = M.evictList.length := List.countP_eq_length.mpr hall
      have h2 := (evictList_subperm M).countP_le
        (fun q : String × Nat => !keyNotIn ids q.1)
      have h3 := countP_add_countP_not
        (fun q : String × Nat => keyNotIn ids q.1)
        (terminalEntries M.state)
      have h4 := evictList_length M
      have h5 : ¬(terminalEntries M.state).length ≤ M.maxHistory := hn
      omega
    · intro k s hk hns
      rw [hstate, ← foldRemove_filter, lookup_foldRemove]
      have hkids : k ∉ ids := by
        intro hmem
        rcases hmem_ids k hmem with ⟨s₀, hs₀, hterm₀, _⟩
        rw [hk] at hs₀
        cases hs₀
        rcases hns with h | h <;>
          rw [h] at hterm₀ <;> cases hterm₀
      rw [if_neg hkids]
      exact hk
    · intro k hk1 hk2
      rw [hstate, ← foldRemove_filter, lookup_foldRemove] at hk2
      by_cases hkids : k ∈ ids
      · rw [htasks, habort, hgen, htime]
        simp only [← foldRemove_filter, lookup_foldRemove, if_pos hkids]
        exact ⟨trivial, trivial, trivial, trivial⟩
      · rw [if_neg hkids] at hk2
        rw [hk2] at hk1
        cases hk1
    · intro k s lr hk hlr hpost k' s' lr' hk' hlr'
      rw [hstate, ← foldRemove_filter, lookup_foldRemove] at hpost hk'
      by_cases hkids : k ∈ ids
      · by_cases hkids' : k' ∈ ids
        · rw [if_pos hkids'] at hk'
          cases hk'
        · rw [if_neg hkids'] at hk'
          rcases hmem_ids k hkids with ⟨s₀, hs₀, hterm₀, lr₀, hlr₀, hpev⟩
          rw [hk] at hs₀
          cases hs₀
          rw [hlr] at hlr₀
          cases hlr₀
          have hmem' : (k', s') ∈ M.state := lookup_mem hk'
          have htt' : (k', lr') ∈ terminalEntries M.state :=
            terminalEntries_mem hmem' hlr'
          have hsorted := List.sorted_insertionSort lastRunLE
            (terminalEntries M.state)
          set c := (terminalEntries M.state).length - M.maxHistory
            with hc
          have hsplit := List.take_append_drop c
            ((terminalEntries M.state).insertionSort lastRunLE)
          have hpw := List.pairwise_append.mp (by
            rw [hsplit]
            exact hsorted)
          have hmem_sorted : (k', lr')
              ∈ (terminalEntries M.state).insertionSort lastRunLE :=
            (List.perm_insertionSort lastRunLE _).mem_iff.mpr htt'
          rw [← hsplit] at hmem_sorted
          rcases List.mem_append.mp hmem_sorted with hin | hin
          · exfalso
            apply hkids'
            rw [hids, evictList_take]
            exact List.mem_map.mpr ⟨(k', lr'), hin, rfl⟩
          · have := hpw.2.2 (k, lr) (by
              rw [evictList_take] at hpev
              exact hpev) (k', lr') hin
            exact this
      · rw [if_neg hkids] at hpost
        rw [hpost] at hk
        cases hk


/-- An accepted `setState` into a terminal status is `applyWrite` followed
by `evictOldTasks`. -/
theorem setState_accepted_eq (m : Manager) (taskId : String) (ns : TaskState)
    (hterm : ns.status.isTerminal = true)
    (hacc : ((m.setState taskId ns).2).isSome = true) :
    (m.setState taskId ns).1 = (m.applyWrite taskId ns).evictOldTasks := by
  unfold Manager.setState at hacc ⊢
  cases h : lookupKey m.state taskId
  · rw [h] at hacc
    simp at hacc
  · rename_i cur
    rw [h] at hacc
    dsimp only at hacc ⊢
    by_cases hg : ((cur.status == TaskStatus.canceled
        || cur.status == TaskStatus.timed_out)
        && ns.status != cur.status && ns.status != TaskStatus.running)
        = true
    · rw [if_pos hg] at hacc
      simp at hacc
    · rw [if_neg hg] at hacc ⊢
      rw [if_pos hterm]

/-- C6: with `maxHistory = K > 0` (and a well-formed, key-nodup state map),
after every accepted transition into a terminal status the number of tasks
stored in a terminal status is at most `K`; tasks in `pending` or `running`
status are never evicted; a task evicted by the transition is removed from
every internal structure (descriptor, state, controller, generation
counter, timer); and only oldest-by-`lastRun` terminal tasks are evicted —
every evicted task's `lastRun` is at most that of every surviving terminal
task. -/
theorem c6_eviction_bound (m : Manager) (K : Nat) (taskId : String)
    (ns : TaskState) (hK : m.maxHistory = K) (hKpos : 0 < K)
    (hnd : (m.state.map Prod.fst).Nodup)
    (hterm : ns.status.isTerminal = true)
    (hacc : ((m.setState taskId ns).2).isSome = true) :
    terminalCount ((m.setState taskId ns).1).state ≤ K ∧
    (∀ id' s, id' ≠ taskId → lookupKey m.state id' = some s →
      (s.status = .pending ∨ s.status = .running) →
      lookupKey ((m.setState taskId ns).1).state id' = some s) ∧
    (∀ id', id' ≠ taskId → (lookupKey m.state id').isSome = true →
      lookupKey ((m.setState taskId ns).1).state id' = none →
      lookupKey ((m.setState taskId ns).1).tasks id' = none ∧
      lookupKey ((m.setState taskId ns).1).abortControllers id' = none ∧
      lookupKey ((m.setState taskId ns).1).runGeneration id' = none ∧
      lookupKey ((m.setState taskId ns).1).timeouts id' = none) ∧
    (∀ id' s lr, id' ≠ taskId → lookupKey m.state id' = some s →
      s.lastRun? = some lr →
      lookupKey ((m.setState taskId ns).1).state id' = none →
      ∀ id'' s'' lr'',
        lookupKey ((m.setState taskId ns).1).state id'' = some s'' →
        s''.lastRun? = some lr'' → lr ≤ lr'') := by
  have heq := setState_accepted_eq m taskId ns hterm hacc
  have hMstate : (m.applyWrite taskId ns).state
      = setKey m.state taskId ns := applyWrite_state m taskId ns
  have hMK : (m.applyWrite taskId ns).maxHistory = m.maxHistory :=
    applyWrite_maxHistory m taskId ns
  have hMnd : ((m.applyWrite taskId ns).state.map Prod.fst).Nodup := by
    rw [hMstate]
    exact nodup_keys_setKey _ _ _ hnd
  have hmain := evict_main (m.applyWrite taskId ns)
    (by rw [hMK, hK]; exact hKpos) hMnd
  rw [heq]
  refine ⟨?_, ?_, ?_, ?_⟩
  · have := hmain.1
    rw [hMK, hK] at this
    exact this
  · intro id' s hne hk hps
    exact hmain.2.1 id' s
      (by rw [hMstate, lookupKey_setKey_other _ _ _ _ hne]; exact hk) hps
  · intro id' hne hk1 hk2
    exact hmain.2.2.1 id'
      (by rw [hMstate, lookupKey_setKey_other _ _ _ _ hne]; exact hk1) hk2
  · intro id' s lr hne hk hlr hpost id'' s'' lr'' hk'' hlr''
    exact hmain.2.2.2 id' s lr
      (by rw [hMstate, lookupKey_setKey_other _ _ _ _ hne]; exact hk)
      hlr hpost id'' s'' lr'' hk'' hlr''

/-- A concrete manager with `maxHistory = 1`: `"A"` already `canceled` at
time `2`, `"P"` pending, `"B"` running (about to complete at time `3`). -/
def c6m : Manager :=
  { mkManager false 1 0 with
    tasks := [("A", { id := "A", timeout := none }),
              ("P", { id := "P", timeout := none }),
              ("B", { id := "B", timeout := none })],
    state := [("A", .canceled "A" 2), ("P", .pending "P"),
              ("B", .running "B" none)],
    nextEventId := 5 }

/-- Witness for C6 at concrete inputs: completing `"B"` at time `3` evicts
the older terminal `"A"` from every map, keeps the bound, keeps the pending
`"P"`, and the evicted `"A"` (`lastRun 2`) is older than the surviving
terminal `"B"` (`lastRun 3`). -/
theorem c6_eviction_bound_witness :
    terminalCount ((c6m.setState "B" (.completed "B" 3)).1).state ≤ 1 ∧
    lookupKey ((c6m.setState "B" (.completed "B" 3)).1).state "P"
        = some (.pending "P") ∧
    (lookupKey ((c6m.setState "B" (.completed "B" 3)).1).tasks "A" = none ∧
     lookupKey ((c6m.setState "B" (.completed "B" 3)).1).abortControllers
        "A" = none ∧
     lookupKey ((c6m.setState "B" (.completed "B" 3)).1).runGeneration "A"
        = none ∧
     lookupKey ((c6m.setState "B" (.completed "B" 3)).1).timeouts "A"
        = none) ∧
    (2 : Nat) ≤ 3 :=
  ⟨(c6_eviction_bound c6m 1 "B" (.completed "B" 3) rfl (by decide)
      (by decide) (by decide) (by decide)).1,
   (c6_eviction_bound c6m 1 "B" (.completed "B" 3) rfl (by decide)
      (by decide) (by decide) (by decide)).2.1 "P" (.pending "P")
      (by decide) (by decide) (Or.inl rfl),
   (c6_eviction_bound c6m 1 "B" (.completed "B" 3) rfl (by decide)
      (by decide) (by decide) (by decide)).2.2.1 "A" (by decide)
      (by decide) (by decide),
   (c6_eviction_bound c6m 1 "B" (.completed "B" 3) rfl (by decide)
      (by decide) (by decide) (by decide)).2.2.2 "A" (.canceled "A" 2) 2
      (by decide) (by decide) (by decide) (by decide) "B"
      (.completed "B" 3) 3 (by decide) (by decide)⟩


/-! ## Lemmas for staleness (C1) -/

/-- A stale run's `ctx.progress` produces no event and changes nothing. -/
theorem progress_stale_noop (m : Manager) (taskId : String) (h : RunHandle)
    (hst : m.isStaleRun taskId h = true) (msg : String) (c t : Option Nat) :
    m.progressCall taskId h msg c t = (m, none) := by
  unfold Manager.progressCall
  rw [if_pos hst]

/-- A stale run's settlement writes nothing, emits nothing, and — per the
`finally` block, which skips cleanup for stale runs — releases nothing. -/
theorem settle_stale_noop (m : Manager) (taskId : String) (h : RunHandle)
    (hst : m.isStaleRun taskId h = true) (outcome : Settlement) (now : Nat) :
    m.settle taskId h outcome now = (m, none) := by
  unfold Manager.settle
  cases outcome <;> simp [hst]

@[simp] theorem clearTimeoutOf_runGeneration (m : Manager)
    (taskId : String) :
    (m.clearTimeoutOf taskId).runGeneration = m.runGeneration :=
  (clearTimeoutOf_spec m taskId).2.2.2.1

@[simp] theorem scheduleTimer_runGeneration (m : Manager) (taskId : String)
    (task : RegisteredTask) :
    (m.scheduleTimer taskId task).runGeneration = m.runGeneration := by
  unfold Manager.scheduleTimer
  split
  · split <;> rfl
  · rfl

theorem setState_nonterminal_gen (m : Manager) (t : String) (ns : TaskState)
    (h : ns.status.isTerminal = false) :
    ((m.setState t ns).1).runGeneration = m.runGeneration := by
  unfold Manager.setState
  cases hc : lookupKey m.state t
  · rfl
  · dsimp only
    split
    · rfl
    · dsimp only
      rw [if_neg (by rw [h]; exact Bool.false_ne_true)]
      exact applyWrite_runGeneration m t ns

theorem setState_gen_cases (m : Manager) (t : String) (ns : TaskState)
    (id : String) :
    lookupKey ((m.setState t ns).1).runGeneration id
        = lookupKey m.runGeneration id ∨
    lookupKey ((m.setState t ns).1).runGeneration id = none :=
  ((setState_lookup_other m t ns id).1).imp
    (fun h => h.2.2.1) (fun h => h.2.2.1)

theorem startCore_runGeneration (m : Manager) (taskId : String) :
    (m.startCore taskId).runGeneration
      = setKey m.runGeneration taskId
          ((lookupKey m.runGeneration taskId).getD 0 + 1) := by
  unfold Manager.startCore
  rw [clearTimeoutOf_runGeneration]

/-- Every operation leaves a task's stored generation unchanged, deletes it
(eviction), or — for a `start` of that very task — replaces it by its
successor. -/
theorem applyOp_gen (m : Manager) (op : Op) (id : String) :
    lookupKey ((m.applyOp op).1).runGeneration id
        = lookupKey m.runGeneration id ∨
    lookupKey ((m.applyOp op).1).runGeneration id = none ∨
    lookupKey ((m.applyOp op).1).runGeneration id
        = some ((lookupKey m.runGeneration id).getD 0 + 1) := by
  cases op with
  | reg taskId t =>
    simp only [Manager.applyOp]
    cases hreg : m.register taskId t with
    | ok m' =>
      dsimp only
      left
      unfold Manager.register at hreg
      split at hreg
      · cases hreg
      · cases hreg
        rfl
    | error e => left; rfl
  | start taskId =>
    simp only [Manager.applyOp]
    unfold Manager.start
    cases ht : lookupKey m.tasks taskId <;>
      cases hs : lookupKey m.state taskId
    · left; rfl
    · left; rfl
    · left; rfl
    · dsimp only
      split
      · left; rfl
      · dsimp only
        rw [scheduleTimer_runGeneration,
          setState_nonterminal_gen _ _ _ (by rfl), startCore_runGeneration]
        by_cases hid : id = taskId
        · subst hid
          right; right
          rw [lookupKey_setKey_self]
        · left
          rw [lookupKey_setKey_other _ _ _ _ hid]
  | cancel taskId now =>
    simp only [Manager.applyOp]
    unfold Manager.cancel
    cases hc : lookupKey m.abortControllers taskId
    · left; rfl
    · dsimp only
      rcases setState_gen_cases
          ((({ m with
              aborted := _ :: m.aborted,
              abortControllers := removeKey m.abortControllers taskId
            }).clearTimeoutOf taskId)) taskId (.canceled taskId now) id
        with h | h
      · left
        rw [h, clearTimeoutOf_runGeneration]
      · right; left
        exact h
  | progress taskId h msg c t =>
    simp only [Manager.applyOp]
    unfold Manager.progressCall
    split
    · left; rfl
    · split
      · split
        · left
          rw [setState_nonterminal_gen _ _ _ (by rfl)]
        · left; rfl
      · left; rfl
  | settle taskId h outcome now =>
    simp only [Manager.applyOp]
    unfold Manager.settle
    cases outcome with
    | success =>
      dsimp only
      split
      · rcases setState_gen_cases m taskId (.completed taskId now) id
          with hsc | hsc
        · split
          · left
            rw [clearTimeoutOf_runGeneration]
            exact hsc
          · left; exact hsc
        · split
          · right; left
            rw [clearTimeoutOf_runGeneration]
            exact hsc
          · right; left; exact hsc
      · split
        · left
          rw [clearTimeoutOf_runGeneration]
        · left; rfl
    | failure msg =>
      dsimp only
      split
      · rcases setState_gen_cases m taskId (.error taskId now msg) id
          with hsc | hsc
        · split
          · left
            rw [clearTimeoutOf_runGeneration]
            exact hsc
          · left; exact hsc
        · split
          · right; left
            rw [clearTimeoutOf_runGeneration]
            exact hsc
          · right; left; exact hsc
      · split
        · left
          rw [clearTimeoutOf_runGeneration]
        · left; rfl
  | fire timerId now =>
    simp only [Manager.applyOp]
    unfold Manager.fireTimeout
    split
    · left; rfl
    · rename_i tid heq
      split
      · left; rfl
      · dsimp only
        cases hs : lookupKey m.state tid
        · left; rfl
        · dsimp only
          split
          · left; rfl
          · cases hc : lookupKey m.abortControllers tid <;>
            · dsimp only
              rcases setState_gen_cases _ tid (.timed_out tid now) id
                with hsc | hsc
              · left
                exact hsc
              · right; left
                exact hsc


/-- The task's stored generation exists and is at least `g`. -/
def GenAtLeast (m : Manager) (id : String) (g : Nat) : Prop :=
  ∃ g', lookupKey m.runGeneration id = some g' ∧ g ≤ g'

instance (m : Manager) (id : String) (g : Nat) :
    Decidable (GenAtLeast m id g) := by
  unfold GenAtLeast
  cases lookupKey m.runGeneration id with
  | none => exact isFalse (by rintro ⟨g', hg', _⟩; cases hg')
  | some g' =>
    by_cases h : g ≤ g'
    · exact isTrue ⟨g', rfl, h⟩
    · exact isFalse (by
        rintro ⟨g'', hg'', hle⟩
        cases hg''
        exact h hle)

/-- One step: as long as the generation entry survives the operation, it
can only stay or grow. -/
theorem genAtLeast_step (m : Manager) (op : Op) (id : String) (g : Nat)
    (hg : GenAtLeast m id g)
    (hkeep : (lookupKey ((m.applyOp op).1).runGeneration id).isSome
      = true) :
    GenAtLeast ((m.applyOp op).1) id g := by
  rcases hg with ⟨g', hg', hge⟩
  rcases applyOp_gen m op id with h | h | h
  · exact ⟨g', h.trans hg', hge⟩
  · rw [h] at hkeep
    cases hkeep
  · refine ⟨(lookupKey m.runGeneration id).getD 0 + 1, h, ?_⟩
    rw [hg']
    simp only [Option.getD_some]
    omega

/-- Along a trace: as long as the generation entry survives every prefix,
it stays at least `g` at every prefix. -/
theorem genAtLeast_run (ops : List Op) (m : Manager) (id : String) (g : Nat)
    (hg : GenAtLeast m id g)
    (hkeep : ∀ i, i ≤ ops.length →
      (lookupKey ((m.runOps (ops.take i)).1).runGeneration id).isSome
        = true) :
    ∀ i, i ≤ ops.length → GenAtLeast ((m.runOps (ops.take i)).1) id g := by
  induction ops generalizing m with
  | nil =>
    intro i hi
    have h0 : i = 0 := Nat.le_zero.mp (by simpa using hi)
    subst h0
    exact hg
  | cons op rest ih =>
    intro i hi
    cases i with
    | zero => exact hg
    | succ j =>
      have hg1 : GenAtLeast ((m.applyOp op).1) id g := by
        apply genAtLeast_step m op id g hg
        have := hkeep 1 (by simp)
        simpa using this
      have hkeep1 : ∀ i, i ≤ rest.length →
          (lookupKey ((((m.applyOp op).1).runOps
            (rest.take i)).1).runGeneration id).isSome = true := by
        intro i hi'
        have := hkeep (i + 1) (by simpa using Nat.succ_le_succ hi')
        simpa using this
      have := ih ((m.applyOp op).1) hg1 hkeep1 j (Nat.le_of_succ_le_succ hi)
      simpa using this

/-- A run handle with a generation strictly below the stored bound is
stale. -/
theorem stale_of_genAtLeast (m : Manager) (id : String) (h : RunHandle)
    (g : Nat) (hga : GenAtLeast m id g) (hlt : h.generation < g) :
    m.isStaleRun id h = true := by
  rcases hga with ⟨g', hg', hge⟩
  unfold Manager.isStaleRun
  rw [hg']
  simp only [bne_iff_ne, ne_eq, Option.some_inj]
  omega

/-- The handle and generation record produced by a successful `start`. -/
theorem start_gen (m : Manager) (taskId : String) (hNew : RunHandle)
    (hs : (m.start taskId).2.1 = some hNew) :
    hNew.generation = (lookupKey m.runGeneration taskId).getD 0 + 1 ∧
    lookupKey ((m.start taskId).1).runGeneration taskId
      = some hNew.generation := by
  unfold Manager.start at hs ⊢
  revert hs
  cases ht : lookupKey m.tasks taskId with
  | none =>
    intro hs
    simp at hs
  | some task =>
    cases hst : lookupKey m.state taskId with
    | none =>
      intro hs
      simp at hs
    | some cur =>
      intro hs
      dsimp only at hs ⊢
      by_cases hrun : (cur.status == TaskStatus.running) = true
      · rw [if_pos hrun] at hs
        simp at hs
      · rw [if_neg hrun] at hs ⊢
        dsimp only at hs ⊢
        cases hs
        refine ⟨rfl, ?_⟩
        rw [scheduleTimer_runGeneration,
          setState_nonterminal_gen _ _ _ (by rfl), startCore_runGeneration,
          lookupKey_setKey_self]

/-- `cancel` either leaves a task's descriptor and generation entries
untouched, or (through eviction) removes both. -/
theorem cancel_gen_tasks (m : Manager) (taskId k : String) (now : Nat) :
    (lookupKey ((m.cancel taskId now).1).tasks k = lookupKey m.tasks k ∧
     lookupKey ((m.cancel taskId now).1).runGeneration k
        = lookupKey m.runGeneration k) ∨
    (lookupKey ((m.cancel taskId now).1).tasks k = none ∧
     lookupKey ((m.cancel taskId now).1).runGeneration k = none) := by
  unfold Manager.cancel
  cases hc : lookupKey m.abortControllers taskId
  · left; exact ⟨rfl, rfl⟩
  · dsimp only
    rcases (setState_lookup_other _ taskId (.canceled taskId now) k).1
      with he | he
    · left
      constructor
      · rw [he.1, (clearTimeoutOf_spec _ _).1]
      · rw [he.2.2.1, clearTimeoutOf_runGeneration]
    · right
      exact ⟨he.1, he.2.2.1⟩


/-- Step 1 of the C1 trace: a manager with `maxHistory = 1` and task
`"A"` registered. -/
def c1m0 : Manager := registerD (mkManager false 1 0) "A" none

/-- Step 2: `start("A")` — the first run's closures capture the handle
`⟨generation 1, controller 0⟩`. -/
def c1s1 := c1m0.start "A"

/-- Steps 3–4: `cancel("A")` immediately followed by `start("A")` — the
second run gets generation `2`, superseding the first. -/
def c1s2 := (c1s1.1.cancel "A" 10).1.start "A"

/-- Step 5: the generation-2 run reports progress — a generation-2 event is
delivered. -/
def c1p := c1s2.1.progressCall "A" { generation := 2, ctrl := 1 }
  "second run" none none

/-- Steps 6–8: cancel `"A"` again; register and run `"B"` to completion —
its terminal transition evicts the older terminal `"A"` (bound 1), deleting
`"A"`'s generation counter. -/
def c1mrest : Manager :=
  (((registerD ((c1p.1.cancel "A" 20).1) "B" none).start "B").1.settle "B"
    { generation := 1, ctrl := 2 } .success 30).1

/-- Steps 9–10: re-register `"A"` and start it — the generation counter was
reset by the eviction, so this run is numbered generation `1` again. -/
def c1mfinal : Manager := ((registerD c1mrest "A" none).start "A").1

/-- Step 11: the long-superseded first run (generation 1, canceled at step
3 and superseded at step 4) calls `ctx.progress` — and emits an event. -/
def c1late := c1mfinal.progressCall "A" { generation := 1, ctrl := 0 }
  "stale run emits" none none

/-- C1 counterexample: after `cancel("A")` immediately followed by
`start("A")`, the superseding run is generation `2` and delivers an event
(id `4`); yet later in the same trace — after the id is evicted and
re-registered, which resets its generation counter — the superseded
generation-1 run's `ctx.progress` is no longer stale and delivers an event
(id `9`): a transition from generation 1 delivered after a transition from
generation 2 for the same id, contradicting the claim as stated. -/
theorem c1_counterexample :
    c1s1.2.1 = some { generation := 1, ctrl := 0 } ∧
    c1s2.2.1 = some { generation := 2, ctrl := 1 } ∧
    c1p.2 = some { taskId := "A", state := .running "A" (some { message := "second run", current := none, total := none }), eventId := 4 } ∧
    lookupKey c1mfinal.runGeneration "A" = some 1 ∧
    c1mfinal.isStaleRun "A" { generation := 1, ctrl := 0 } = false ∧
    c1late.2 = some { taskId := "A", state := .running "A" (some { message := "stale run emits", current := none, total := none }), eventId := 9 } := by
  decide

/-- C1, amended: after `cancel(id)` immediately followed by `start(id)`,
the new run is generation `g + 1`; and along every subsequent operation
trace in which the id's generation entry survives (the id is not evicted —
eviction deletes the counter, and a later re-register/start would renumber
runs from 1), the superseded run stays stale, so its `progress` calls
return the manager unchanged and produce no event, and its settlement
(success or failure) writes nothing and produces no event: no transition
from generation `g` is delivered after a transition from generation
`g + 1` for the same id. -/
theorem c1_amended_staleness (m0 : Manager) (taskId : String)
    (hOld hNew : RunHandle) (g now : Nat) (ops : List Op)
    (hgen : lookupKey m0.runGeneration taskId = some g)
    (hOldle : hOld.generation ≤ g)
    (hstart : ((m0.cancel taskId now).1.start taskId).2.1 = some hNew)
    (hkeep : ∀ i, i ≤ ops.length →
      (lookupKey ((((m0.cancel taskId now).1.start taskId).1.runOps
          (ops.take i)).1).runGeneration taskId).isSome = true) :
    hNew.generation = g + 1 ∧
    ∀ i, i ≤ ops.length →
      ((((m0.cancel taskId now).1.start taskId).1.runOps
          (ops.take i)).1).isStaleRun taskId hOld = true ∧
      (∀ msg c t,
        ((((m0.cancel taskId now).1.start taskId).1.runOps
            (ops.take i)).1).progressCall taskId hOld msg c t
          = ((((m0.cancel taskId now).1.start taskId).1.runOps
              (ops.take i)).1, none)) ∧
      (∀ outcome now',
        ((((m0.cancel taskId now).1.start taskId).1.runOps
            (ops.take i)).1).settle taskId hOld outcome now'
          = ((((m0.cancel taskId now).1.start taskId).1.runOps
              (ops.take i)).1, none)) := by
  have hgen1 : lookupKey ((m0.cancel taskId now).1).runGeneration taskId
      = some g := by
    rcases cancel_gen_tasks m0 taskId taskId now with ⟨_, h2⟩ | ⟨h1, _⟩
    · rw [h2]
      exact hgen
    · exfalso
      unfold Manager.start at hstart
      rw [h1] at hstart
      simp at hstart
  have hsg := start_gen (m0.cancel taskId now).1 taskId hNew hstart
  have hNg : hNew.generation = g + 1 := by
    rw [hsg.1, hgen1]
    rfl
  have hga0 : GenAtLeast ((m0.cancel taskId now).1.start taskId).1
      taskId (g + 1) :=
    ⟨g + 1, by rw [← hNg]; exact hsg.2, Nat.le_refl _⟩
  have hrun := genAtLeast_run ops _ taskId (g + 1) hga0 hkeep
  refine ⟨hNg, fun i hi => ?_⟩
  have hstale := stale_of_genAtLeast _ taskId hOld (g + 1) (hrun i hi)
    (by omega)
  exact ⟨hstale,
    fun msg c t => progress_stale_noop _ _ _ hstale msg c t,
    fun outcome now' => settle_stale_noop _ _ _ hstale outcome now'⟩

/-- The manager at the heart of the amended-C1 witness: the first run of
`"A"` (generation 1, controller 0) was canceled and immediately
restarted. -/
def c1w : Manager := ((c1s1.1.cancel "A" 10).1.start "A").1

/-- Witness for the amended C1 at concrete inputs (empty continuation
trace): the superseding run is generation `2 = 1 + 1`, the old handle is
stale, and its progress and settlement are exact no-ops. -/
theorem c1_amended_staleness_witness :
    ({ generation := 2, ctrl := 1 } : RunHandle).generation = 1 + 1 ∧
    c1w.isStaleRun "A" { generation := 1, ctrl := 0 } = true ∧
    c1w.progressCall "A" { generation := 1, ctrl := 0 } "late" none none
      = (c1w, none) ∧
    c1w.settle "A" { generation := 1, ctrl := 0 } .success 42
      = (c1w, none) := by
  have h := c1_amended_staleness c1s1.1 "A" { generation := 1, ctrl := 0 }
    { generation := 2, ctrl := 1 } 1 10 [] (by decide) (by decide)
    (by decide)
    (fun i hi => by
      have h0 : i = 0 := Nat.le_zero.mp (by simpa using hi)
      subst h0
      decide)
  have h0 := h.2 0 (Nat.le_refl 0)
  exact ⟨h.1, h0.1, h0.2.1 "late" none none, h0.2.2 .success 42⟩


end TaskMgr
